import Mathlib

/-!
# Verification of the evaluation-submission pipeline
# (College-Project-Management-System, evaluation controller)

Shallow embedding of the evaluation controller
(`getDefenseBydId`, `submitEvaluation` and its `...WithSession` helpers).

Modelling conventions:
* MongoDB documents are Lean structures; each collection is an association
  list `List (Nat × α)` keyed by document id.
* Every stateful operation is a function `DB → DB × Except AppError α`.
  A thrown `AppError` leaves the state it was thrown in (JS exception
  semantics); `mongoose.session.withTransaction` is modelled by restoring
  the *initial* state whenever the body ends in an error (transaction
  rollback), and committing the final state otherwise.
* `Project.findOneAndUpdate` with the dotted-path filter
  `{ "<t>.defenses.evaluators.evaluator": e, "<t>.defenses.evaluators.hasEvaluated": false }`
  follows MongoDB semantics for two separate dotted-path conditions on the
  same array: each condition is satisfied if *some* (possibly different)
  nested element satisfies it (no `$elemMatch` is used in the source).
  The positional `$` in the update resolves, per MongoDB behaviour for
  multiple conditions, to the first `defenses` element matching the last
  array condition of the query (`hasEvaluated: false`).
* Storage failures are modelled only where a claim needs them: the room
  update inside `checkAndUpdateDefenseCompletionWithSession` takes a fault
  oracle `faults : Nat → Bool` saying whether updating a given room id
  throws a storage error.  The surrounding code is translated as-is
  (its `try/catch` either rethrows or swallows, exactly as in the source).
* Helper modules that the controller imports but whose files are not part
  of the repository snapshot (judgement configs, progress-status helpers,
  the conflict comparator) are modelled from the specification; each such
  definition carries a `Modelled from the spec:` doc comment.
-/

/-- The three evaluation stages (`evaluationType` in the source). -/
inductive EvalType where
  | proposal
  | mid
  | final
deriving DecidableEq, Repr

/-- Modelled from the spec: the union of the stage-specific judgement
constants exported by `proposalJudgementConfig`, `midJudgementConfig` and
`finalJudgementConfig` (files absent from the snapshot).  Constants with
the same name in several configs (ACCEPTED, ACCEPTED-CONDITIONALLY,
RE-DEFENSE, ABSENT) are identified, matching the spec's single judgement
taxonomy. -/
inductive Judgement where
  | ACCEPTED
  | ACCEPTED_CONDITIONALLY
  | RE_DEFENSE
  | ABSENT
  | REJECTED
  | PROGRESS_SATISFACTORY
  | PROGRESS_SEEN
  | PROGRESS_NOT_SATISFACTORY
deriving DecidableEq, Repr

/-- Modelled from the spec: `eventStatusList` (file absent from the
snapshot).  The source comments give `complete` = 105; `archive` is some
other distinguished code. -/
structure EventStatusList where
  complete : Nat
  archive : Nat

/-- The concrete status table.  `105 i.e. complete` is quoted in the
source; the archive code only needs to be distinct. -/
def eventStatusList : EventStatusList := { complete := 105, archive := 106 }

/-- Modelled from the spec: the `(evaluationType, outcome) → eligibility
code` table `progressStatusEligibilityCode` (file absent from the
snapshot).  Concrete values are arbitrary but fixed and distinct. -/
structure EligibilityCodes where
  defensePass : Nat
  defenseFail : Nat
  rejected : Nat
deriving DecidableEq, Repr

/-- Modelled from the spec: one eligibility-code row per evaluation type. -/
def progressStatusEligibilityCode : EvalType → EligibilityCodes
  | .proposal => { defensePass := 1, defenseFail := 2, rejected := 3 }
  | .mid => { defensePass := 4, defenseFail := 5, rejected := 6 }
  | .final => { defensePass := 7, defenseFail := 8, rejected := 9 }

/-- Modelled from the spec: `updateProjectFirstProgressStatus` maps an
eligibility code to the tier-0 progress-status range [0,1000). -/
def updateProjectFirstProgressStatus (code : Nat) : Nat := code

/-- Modelled from the spec: `updateMinorProgressStatus` maps an
eligibility code to the tier-1 progress-status range [1000,2000). -/
def updateMinorProgressStatus (code : Nat) : Nat := 1000 + code

/-- Modelled from the spec: `updateMajorProgressStatus` maps an
eligibility code to the tier-2 progress-status range [2000,3000). -/
def updateMajorProgressStatus (code : Nat) : Nat := 2000 + code

/-- Modelled from the spec: `initializeEventTypeBasedOnBatch` (file absent
from the snapshot) resolves a cohort tier from the enrollment batch year
relative to the current year.  It is the inverse of the repository's
`getBatchYearFromEventType` helper (eventType "0"/"1"/"2" ↦ currentYear
minus 2/3/4); batch years outside those offsets resolve to no tier. -/
def initializeEventTypeBasedOnBatch (currentYear batchNumber : Nat) : String :=
  if currentYear - batchNumber = 2 then "0"
  else if currentYear - batchNumber = 3 then "1"
  else if currentYear - batchNumber = 4 then "2"
  else ""

/-- One entry of a defense-object's `evaluators[]` array. -/
structure EvalEntry where
  evaluator : Nat
  hasEvaluated : Bool
deriving DecidableEq, Repr

/-- One embedded defense-object (`project[t].defenses[]`), with its
Mongo `_id` modelled as `oid`. -/
structure DefenseObj where
  oid : Nat
  evaluators : List EvalEntry
  isGraded : Bool
deriving DecidableEq, Repr

/-- The per-evaluation-type sub-document of a Project
(`project.proposal` / `.mid` / `.final`). -/
structure SubEvent where
  defenses : List DefenseObj
  hasGraduated : Bool
  evaluations : List Nat
  report : Option String
deriving DecidableEq, Repr

/-- A Project document. -/
structure Project where
  proposal : SubEvent
  mid : SubEvent
  final : SubEvent
  teamMembers : List Nat
  status : Nat
deriving DecidableEq, Repr

/-- `project[evaluationType]` — dynamic sub-document access. -/
def Project.sub (p : Project) : EvalType → SubEvent
  | .proposal => p.proposal
  | .mid => p.mid
  | .final => p.final

/-- Replace `project[evaluationType]`. -/
def Project.setSub (p : Project) : EvalType → SubEvent → Project
  | .proposal, se => { p with proposal := se }
  | .mid, se => { p with mid := se }
  | .final, se => { p with final := se }

/-- A Student document (fields used by the controller). -/
structure Student where
  progressStatus : Nat
  isAssociated : Bool
  project : Option Nat
  batchNumber : Nat
deriving DecidableEq, Repr

/-- One entry of an Evaluator document's `defense[]` array. -/
structure EvaluatorDefenseEntry where
  defenseId : Nat
  accessCode : Option String
deriving DecidableEq, Repr

/-- An Evaluator document (fields used by the controller). -/
structure Evaluator where
  defense : List EvaluatorDefenseEntry
deriving DecidableEq, Repr

/-- A top-level Defense document. -/
structure Defense where
  rooms : List Nat
  status : Nat
  evaluations : List Nat
  defenseType : EvalType
deriving DecidableEq, Repr

/-- A Room document (fields used by the controller). -/
structure Room where
  projects : List Nat
  isCompleted : Bool
deriving DecidableEq, Repr

/-- One element of the submitted `individualEvaluation` array.  Fields
that may be missing in the JSON payload are `Option`s (JS `undefined`). -/
structure IndividualEval where
  member : Nat
  performanceAtPresentation : Option String
  absent : Option Bool
  contributionInWork : Option String
deriving DecidableEq, Repr

/-- The submitted aggregate `projectEvaluation` object: the judgement plus
every score field any of the three formatting branches reads.  Missing
fields are `none` (JS `undefined`). -/
structure ProjectEval where
  judgement : Judgement
  projectTitleAndAbstract : Option String := none
  project : Option String := none
  objective : Option String := none
  teamWork : Option String := none
  documentation : Option String := none
  plagiarism : Option String := none
  feedbackIncorporated : Option String := none
  workProgress : Option String := none
  projectTitle : Option String := none
  volume : Option String := none
  creativity : Option String := none
  analysisAndDesign : Option String := none
  toolAndTechniques : Option String := none
  accomplished : Option String := none
  demo : Option String := none
deriving DecidableEq, Repr

/-- One formatted element of an Evaluation record's
`individualEvaluation` array.  Fields not set by the branch for the
record's evaluation type stay `none`. -/
structure FormattedIndividual where
  student : Nat
  performanceAtPresentation : String
  absent : Bool
  projectTitleAndAbstract : Option String := none
  project : Option String := none
  objective : Option String := none
  teamWork : Option String := none
  documentation : Option String := none
  plagiarism : Option String := none
  feedbackIncorporated : Option String := none
  workProgress : Option String := none
  contributionInWork : Option String := none
  projectTitle : Option String := none
  volume : Option String := none
  creativity : Option String := none
  analysisAndDesign : Option String := none
  toolAndTechniques : Option String := none
  accomplished : Option String := none
  demo : Option String := none
deriving DecidableEq, Repr

/-- A persisted Evaluation record. -/
structure Evaluation where
  individualEvaluation : List FormattedIndividual
  projectEvaluation : ProjectEval
  project : Nat
  evaluator : Nat
  defense : Nat
  event : Nat
  evaluationType : EvalType
deriving DecidableEq, Repr

/-- The database: one association list per collection, a fresh-id counter
for Evaluation inserts, and the wall-clock year consumed by the cohort
tier resolution. -/
structure DB where
  projects : List (Nat × Project)
  students : List (Nat × Student)
  evaluators : List (Nat × Evaluator)
  rooms : List (Nat × Room)
  defenses : List (Nat × Defense)
  evaluations : List (Nat × Evaluation)
  nextEvalId : Nat
  currentYear : Nat
deriving DecidableEq, Repr

/-- `findById` on a collection. -/
def findDoc (l : List (Nat × α)) (i : Nat) : Option α :=
  (l.find? (fun pr => pr.1 = i)).map (fun pr => pr.2)

/-- Field-targeted update of the document with the given id (no-op when
the id is absent, like `findByIdAndUpdate` on a missing id). -/
def updateDoc (l : List (Nat × α)) (i : Nat) (f : α → α) : List (Nat × α) :=
  l.map (fun pr => if pr.1 = i then (pr.1, f pr.2) else pr)

/-- The error value carried by a thrown `AppError(message, statusCode)`. -/
structure AppError where
  message : String
  statusCode : Nat
deriving DecidableEq, Repr

/-- The parsed request body of `submitEvaluation`.  Ids and the aggregate
evaluation are `Option`s so that the handler's missing-credentials check
is represented; `evaluationType` is kept total (an invalid type string
never reaches the branches any claim is about). -/
structure SubmitReq where
  individualEvaluation : List IndividualEval
  projectEvaluation : Option ProjectEval
  projectId : Option Nat
  evaluatorId : Option Nat
  defenseId : Option Nat
  eventId : Option Nat
  evaluationType : EvalType
  roomId : Option Nat
deriving Repr

/-- The success payload assembled into `req.transactionResult`. -/
structure SubmitResult where
  newEvaluation : Evaluation
  evaluatorId : Nat
  defenseCompleted : Bool
deriving DecidableEq, Repr

/-- JS `x || "0"` on a possibly-missing string score. -/
def orZero : Option String → String
  | none => "0"
  | some s => if s = "" then "0" else s

/-- The per-member formatting switch of
`createEvaluationRecordWithSession`: each branch copies the member id,
keeps `performanceAtPresentation` as submitted (defaulted when falsy),
records the absent flag, and forces the branch's type-specific score
fields to `"0"` for absent members. -/
def formatIndividual (t : EvalType) (pe : ProjectEval) (e : IndividualEval) :
    FormattedIndividual :=
  let absent := e.absent.getD false
  match t with
  | .proposal =>
    { student := e.member
      performanceAtPresentation := orZero e.performanceAtPresentation
      absent := absent
      projectTitleAndAbstract := some (if absent then "0" else orZero pe.projectTitleAndAbstract)
      project := some (if absent then "0" else orZero pe.project)
      objective := some (if absent then "0" else orZero pe.objective)
      teamWork := some (if absent then "0" else orZero pe.teamWork)
      documentation := some (if absent then "0" else orZero pe.documentation)
      plagiarism := some (if absent then "0" else orZero pe.plagiarism) }
  | .mid =>
    { student := e.member
      performanceAtPresentation := orZero e.performanceAtPresentation
      absent := absent
      feedbackIncorporated := some (if absent then "0" else orZero pe.feedbackIncorporated)
      workProgress := some (if absent then "0" else orZero pe.workProgress)
      documentation := some (if absent then "0" else orZero pe.documentation) }
  | .final =>
    { student := e.member
      performanceAtPresentation := orZero e.performanceAtPresentation
      absent := absent
      contributionInWork := some (if absent then "0" else orZero e.contributionInWork)
      projectTitle := some (if absent then "0" else orZero pe.projectTitle)
      volume := some (if absent then "0" else orZero pe.volume)
      objective := some (if absent then "0" else orZero pe.objective)
      creativity := some (if absent then "0" else orZero pe.creativity)
      analysisAndDesign := some (if absent then "0" else orZero pe.analysisAndDesign)
      toolAndTechniques := some (if absent then "0" else orZero pe.toolAndTechniques)
      documentation := some (if absent then "0" else orZero pe.documentation)
      accomplished := some (if absent then "0" else orZero pe.accomplished)
      demo := some (if absent then "0" else orZero pe.demo) }

/-- Modelled from the spec: `determineConflictExistsStatus` (file absent
from the snapshot).  Per §4.2, a conflict exists when some already-stored
record for the pair differs structurally — in its aggregate evaluation or
in its (type-specifically formatted) individual evaluations — from what
this submission would store. -/
def determineConflictExistsStatus (matchingEvaluations : List Evaluation)
    (individualEvaluation : List IndividualEval) (projectEvaluation : ProjectEval)
    (t : EvalType) : Bool :=
  matchingEvaluations.any (fun r =>
    r.projectEvaluation ≠ projectEvaluation ||
    r.individualEvaluation ≠ individualEvaluation.map (formatIndividual t projectEvaluation))

/-- First query condition of the Gate: some evaluator entry somewhere in
`(p[t]).defenses` references this evaluator. -/
def hasEvaluatorEntry (p : Project) (t : EvalType) (evaluatorId : Nat) : Bool :=
  (p.sub t).defenses.any (fun d => d.evaluators.any (fun e => e.evaluator = evaluatorId))

/-- Second query condition of the Gate: some evaluator entry somewhere in
`(p[t]).defenses` — not necessarily the same entry — still has
`hasEvaluated = false`. -/
def hasUnevaluatedEntry (p : Project) (t : EvalType) : Bool :=
  (p.sub t).defenses.any (fun d => d.evaluators.any (fun e => !e.hasEvaluated))

/-- The Gate's document filter.  The source query puts the two dotted-path
conditions side by side without `$elemMatch`, so each may be satisfied by
a different nested entry. -/
def gateQueryMatches (p : Project) (t : EvalType) (evaluatorId : Nat) : Bool :=
  hasEvaluatorEntry p t evaluatorId && hasUnevaluatedEntry p t

/-- Index the positional `$` resolves to in the Gate's update: the first
`defenses` element matching the query's last array condition
(`hasEvaluated: false`).  Only used when `gateQueryMatches` holds. -/
def gatePosIdx (p : Project) (t : EvalType) : Nat :=
  (p.sub t).defenses.findIdx (fun d => d.evaluators.any (fun e => !e.hasEvaluated))

/-- Apply `$set { defenses.$.evaluators.$[elem].hasEvaluated: true }` with
`arrayFilters: [{ "elem.evaluator": evaluatorId }]` at position `i`. -/
def setHasEvaluatedAt (evaluatorId : Nat) : Nat → List DefenseObj → List DefenseObj
  | _, [] => []
  | 0, d :: ds =>
    { d with evaluators := d.evaluators.map (fun e =>
        if e.evaluator = evaluatorId then { e with hasEvaluated := true } else e) } :: ds
  | n + 1, d :: ds => d :: setHasEvaluatedAt evaluatorId n ds

/-- The Gate: `Project.findOneAndUpdate(filter, $set, {arrayFilters, new:
true, session})`.  Returns the post-update document, or `none` when no
document matches (duplicate signal). -/
def gateUpdate (s : DB) (projectId : Nat) (t : EvalType) (evaluatorId : Nat) :
    DB × Option Project :=
  match findDoc s.projects projectId with
  | none => (s, none)
  | some p =>
    if gateQueryMatches p t evaluatorId then
      let p' := p.setSub t { p.sub t with
        defenses := setHasEvaluatedAt evaluatorId (gatePosIdx p t) (p.sub t).defenses }
      ({ s with projects := updateDoc s.projects projectId (fun _ => p') }, some p')
    else (s, none)

/-- Set `isGraded := true` on the first defense-object carrying the given
`_id` (positional `$` on the `defenses._id` filter). -/
def setFirstGraded (oid : Nat) : List DefenseObj → List DefenseObj
  | [] => []
  | d :: ds =>
    if d.oid = oid then { d with isGraded := true } :: ds
    else d :: setFirstGraded oid ds

/-- The completion write: `Project.findOneAndUpdate({_id, "<t>.defenses._id":
obj._id}, {$set: {"<t>.defenses.$.isGraded": true, "<t>.hasGraduated":
true}})`.  A no-op when the filter matches no document. -/
def markDefenseGraded (s : DB) (projectId : Nat) (t : EvalType) (oid : Nat) : DB :=
  match findDoc s.projects projectId with
  | none => s
  | some p =>
    if (p.sub t).defenses.any (fun d => d.oid = oid) then
      { s with projects := updateDoc s.projects projectId (fun q =>
          q.setSub t { q.sub t with
            defenses := setFirstGraded oid (q.sub t).defenses
            hasGraduated := true }) }
    else s

/-- The passing/non-passing classification of
`updateStudentProgressStatusWithSession` (its `isPassingJudgment`
disjunction, with the per-config constants identified as in
`Judgement`). -/
def isPassingJudgment : Judgement → Bool
  | .ACCEPTED => true
  | .ACCEPTED_CONDITIONALLY => true
  | .PROGRESS_SATISFACTORY => true
  | .PROGRESS_SEEN => true
  | .PROGRESS_NOT_SATISFACTORY => true
  | _ => false

/-- Whether the cohort-tier string resolved one of the three switch cases. -/
def isResolvedTier (eventType : String) : Bool :=
  eventType = "0" || eventType = "1" || eventType = "2"

/-- The numeric result of the per-tier progress-status switch. -/
def tierStatusFor (eventType : String) (code : Nat) : Nat :=
  if eventType = "0" then updateProjectFirstProgressStatus code
  else if eventType = "1" then updateMinorProgressStatus code
  else if eventType = "2" then updateMajorProgressStatus code
  else 0

/-- The tier switch applied to a student: set the progress status for a
resolved tier, leave the student unchanged on the (unreachable-per-spec)
default case — exactly the source's `switch (eventType)`. -/
def applyTier (eventType : String) (code : Nat) (st : Student) : Student :=
  if isResolvedTier eventType then { st with progressStatus := tierStatusFor eventType code }
  else st

/-- One iteration of the passing branch's `teamMembers.map` callback:
look the student up, run the tier switch with the `defensePass` code, on
the final stage dissociate the member and mark the project complete, then
save the student. -/
def processStudentPassing (t : EvalType) (projectId : Nat) (s : DB) (studentId : Nat) : DB :=
  match findDoc s.students studentId with
  | none => s
  | some student =>
    let eventType := initializeEventTypeBasedOnBatch s.currentYear student.batchNumber
    let student1 := applyTier eventType (progressStatusEligibilityCode t).defensePass student
    if t = EvalType.final then
      let s1 := { s with projects := updateDoc s.projects projectId (fun p =>
        { p with status := eventStatusList.complete }) }
      { s1 with students := updateDoc s1.students studentId (fun _ =>
        { student1 with isAssociated := false, project := none }) }
    else
      { s with students := updateDoc s.students studentId (fun _ => student1) }

/-- One iteration of the failing branch's `teamMembers.map` callback:
re-defense/absent set the `defenseFail` code; rejected dissociates the
member, sets the `rejected` code and archives the project (in each
resolved tier case; the switch default does nothing); the student is
saved in every case. -/
def processStudentFailing (t : EvalType) (projectId : Nat) (j : Judgement)
    (s : DB) (studentId : Nat) : DB :=
  match findDoc s.students studentId with
  | none => s
  | some student =>
    let eventType := initializeEventTypeBasedOnBatch s.currentYear student.batchNumber
    if j = Judgement.RE_DEFENSE || j = Judgement.ABSENT then
      { s with students := updateDoc s.students studentId (fun _ =>
          applyTier eventType (progressStatusEligibilityCode t).defenseFail student) }
    else if j = Judgement.REJECTED then
      if isResolvedTier eventType then
        let s1 := { s with projects := updateDoc s.projects projectId (fun p =>
          { p with status := eventStatusList.archive }) }
        { s1 with students := updateDoc s1.students studentId (fun _ =>
            applyTier eventType (progressStatusEligibilityCode t).rejected
              { student with isAssociated := false, project := none }) }
      else
        { s with students := updateDoc s.students studentId (fun _ => student) }
    else
      { s with students := updateDoc s.students studentId (fun _ => student) }

/-- The judgements after which the failing branch unsets
`<t>.report` (`RE-DEFENSE`, `REJECTED`, the three `ABSENT`s). -/
def isReportClearingJudgement : Judgement → Bool
  | .RE_DEFENSE => true
  | .REJECTED => true
  | .ABSENT => true
  | _ => false

/-- `updateStudentProgressStatusWithSession(project, evaluationType,
projectEvaluation, session)`.  `projectId` is the passed document's
`_id`.  Member updates are sequentialised; each callback touches only its
own student (plus the shared project document), so this matches the
source's `Promise.all` on distinct members. -/
def updateStudentProgressStatusWithSession (project : Project) (projectId : Nat)
    (t : EvalType) (pe : ProjectEval) (s : DB) : DB :=
  if isPassingJudgment pe.judgement then
    project.teamMembers.foldl (processStudentPassing t projectId) s
  else
    let s1 := project.teamMembers.foldl (processStudentFailing t projectId pe.judgement) s
    if isReportClearingJudgement pe.judgement then
      { s1 with projects := updateDoc s1.projects projectId (fun p =>
          p.setSub t { p.sub t with report := none }) }
    else s1

/-- The room-satisfaction test used by the submission cascade: every
populated project of the room has **at least one** graded defense-object
for this evaluation type. -/
def roomSatisfied (s : DB) (t : EvalType) (room : Room) : Bool :=
  (room.projects.filterMap (findDoc s.projects)).all
    (fun p => (p.sub t).defenses.any (fun d => d.isGraded))

/-- The room loop of `checkAndUpdateDefenseCompletionWithSession`.
Returns the state plus `some allRoomsCompleted` on normal exit, or `none`
when a room update threw a storage error (`faults`), which aborts the
rest of the loop; writes made before the throw stay in the session. -/
def cascadeRooms (t : EvalType) (faults : Nat → Bool) :
    List Nat → DB → Bool → DB × Option Bool
  | [], s, allC => (s, some allC)
  | rid :: rest, s, allC =>
    match findDoc s.rooms rid with
    | none => cascadeRooms t faults rest s allC
    | some room =>
      let roomCompleted := roomSatisfied s t room
      if roomCompleted && !room.isCompleted then
        if faults rid then (s, none)
        else
          cascadeRooms t faults rest
            { s with rooms := updateDoc s.rooms rid (fun r => { r with isCompleted := true }) }
            (allC && roomCompleted)
      else cascadeRooms t faults rest s (allC && roomCompleted)

/-- `checkAndUpdateDefenseCompletionWithSession(defenseId, evaluationType,
session)`.  The body's `try/catch` logs and swallows every error, so a
mid-loop storage failure neither aborts the caller nor undoes the
session writes already made. -/
def checkAndUpdateDefenseCompletionWithSession (defenseId : Nat) (t : EvalType)
    (faults : Nat → Bool) (s : DB) : DB :=
  match findDoc s.defenses defenseId with
  | none => s
  | some defense =>
    match cascadeRooms t faults defense.rooms s true with
    | (s1, none) => s1
    | (s1, some allRoomsCompleted) =>
      if allRoomsCompleted then
        { s1 with defenses := updateDoc s1.defenses defenseId (fun d =>
            { d with status := eventStatusList.complete }) }
      else s1

set_option linter.unusedVariables false in
/-- Modelled from the spec: `determineAllProjectsEvaluatedByEvaluator`
(file absent from the snapshot).  Per §4.5: the evaluator has completed
every project assigned to them within the room for this
(defense, evaluationType) — every entry of theirs has `hasEvaluated`.
`defenseId` is kept to mirror the source signature. -/
def determineAllProjectsEvaluatedByEvaluator (projects : List Project)
    (t : EvalType) (defenseId evaluatorId : Nat) : Bool :=
  projects.all (fun p => (p.sub t).defenses.all (fun d =>
    d.evaluators.all (fun e => e.evaluator ≠ evaluatorId || e.hasEvaluated)))

/-- Unset `accessCode` on the first `defense[]` entry of an Evaluator
document carrying this defense id (the source's `find` + mutation). -/
def clearAccessEntry (defenseId : Nat) : List EvaluatorDefenseEntry → List EvaluatorDefenseEntry
  | [] => []
  | d :: ds =>
    if d.defenseId = defenseId then { d with accessCode := none } :: ds
    else d :: clearAccessEntry defenseId ds

/-- `clearEvaluatorAccessCodesWithSession(evaluatorId, defenseId, roomId,
evaluationType, session)`.  Its `try/catch` swallows every error, so the
step never aborts the caller; a missing room (JS `null.projects` throw)
therefore also degrades to a no-op. -/
def clearEvaluatorAccessCodesWithSession (evaluatorId defenseId roomId : Nat)
    (t : EvalType) (s : DB) : DB :=
  match findDoc s.rooms roomId with
  | none => s
  | some room =>
    let projects := room.projects.filterMap (findDoc s.projects)
    if determineAllProjectsEvaluatedByEvaluator projects t defenseId evaluatorId then
      match findDoc s.evaluators evaluatorId with
      | none => s
      | some ev =>
        if ev.defense.any (fun d => d.defenseId = defenseId) then
          { s with evaluators := updateDoc s.evaluators evaluatorId (fun e =>
              { e with defense := clearAccessEntry defenseId e.defense }) }
        else s
    else s

/-- `createEvaluationRecordWithSession`: format the individual
evaluations for the evaluation type, insert one Evaluation document, and
push its id onto both the Defense's and the Project's type-scoped
evaluation lists.  Returns the created record. -/
def createEvaluationRecordWithSession (individualEvaluation : List IndividualEval)
    (pe : ProjectEval) (projectId evaluatorId defenseId eventId : Nat)
    (t : EvalType) (s : DB) : DB × Evaluation :=
  let formattedIndividualEvaluations := individualEvaluation.map (formatIndividual t pe)
  let newEvaluation : Evaluation :=
    { individualEvaluation := formattedIndividualEvaluations
      projectEvaluation := pe
      project := projectId
      evaluator := evaluatorId
      defense := defenseId
      event := eventId
      evaluationType := t }
  let eid := s.nextEvalId
  let s1 := { s with
    evaluations := s.evaluations ++ [(eid, newEvaluation)]
    nextEvalId := eid + 1 }
  let s2 := { s1 with defenses := updateDoc s1.defenses defenseId (fun d =>
    { d with evaluations := d.evaluations ++ [eid] }) }
  let s3 := { s2 with projects := updateDoc s2.projects projectId (fun p =>
    p.setSub t { p.sub t with evaluations := (p.sub t).evaluations ++ [eid] }) }
  (s3, newEvaluation)

/-- The Conflict Detector's record fetch: `Evaluation.find({_id: {$in:
project[t].evaluations}, project: projectId, defense: defenseId})`. -/
def findMatchingEvaluations (s : DB) (project : Project) (t : EvalType)
    (projectId defenseId : Nat) : List Evaluation :=
  (s.evaluations.filter (fun pr =>
    (project.sub t).evaluations.contains pr.1 &&
    pr.2.project = projectId && pr.2.defense = defenseId)).map (fun pr => pr.2)

/-- The body run inside `session.withTransaction` by `submitEvaluation`:
validation, Gate, Conflict Detector, defense-object lookup, the
completion block (flags, Progress Projector, Completion Aggregator,
Access Revocation), and the Record Writer. -/
def submitEvaluationBody (req : SubmitReq) (faults : Nat → Bool) (s : DB) :
    DB × Except AppError SubmitResult :=
  match req.projectEvaluation, req.projectId, req.evaluatorId,
        req.defenseId, req.eventId, req.roomId with
  | some pe, some projectId, some evaluatorId, some defenseId, some eventId, some roomId =>
    if req.individualEvaluation.isEmpty then
      (s, .error { message := "Required Credentials Missing", statusCode := 400 })
    else
      let t := req.evaluationType
      match gateUpdate s projectId t evaluatorId with
      | (s1, none) =>
        (s1, .error { message := "Evaluation already submitted by this evaluator or evaluator not found", statusCode := 409 })
      | (s1, some project) =>
        let matchingEvaluations := findMatchingEvaluations s1 project t projectId defenseId
        if !matchingEvaluations.isEmpty &&
            determineConflictExistsStatus matchingEvaluations req.individualEvaluation pe t then
          (s1, .error { message := "Conflict data detected - evaluation reverted", statusCode := 409 })
        else
          match (project.sub t).defenses.find?
              (fun d => d.evaluators.any (fun e => e.evaluator = evaluatorId)) with
          | none => (s1, .error { message := "Defense Not Found", statusCode := 404 })
          | some obj =>
            let allEvaluatedResult := obj.evaluators.all (fun e => e.hasEvaluated)
            let s2 :=
              if allEvaluatedResult && !obj.isGraded then
                let sA := markDefenseGraded s1 projectId t obj.oid
                let sB := updateStudentProgressStatusWithSession project projectId t pe sA
                let sC := checkAndUpdateDefenseCompletionWithSession defenseId t faults sB
                clearEvaluatorAccessCodesWithSession evaluatorId defenseId roomId t sC
              else s1
            let out := createEvaluationRecordWithSession req.individualEvaluation pe
              projectId evaluatorId defenseId eventId t s2
            (out.1, .ok { newEvaluation := out.2, evaluatorId := evaluatorId,
                          defenseCompleted := allEvaluatedResult })
  | _, _, _, _, _, _ =>
    (s, .error { message := "Required Credentials Missing", statusCode := 400 })

/-- `submitEvaluation`: the transactional wrapper.  A committed body
yields its final state; any error aborts the transaction, rolling every
write back to the initial state, and is surfaced with its status code. -/
def submitEvaluation (req : SubmitReq) (faults : Nat → Bool) (s : DB) :
    DB × Except AppError SubmitResult :=
  match submitEvaluationBody req faults s with
  | (s', .ok r) => (s', .ok r)
  | (_, .error e) => (s, .error e)

/-- The room-satisfaction test used by `getDefenseBydId`: **every**
defense-object of every populated project of the room is graded for the
defense's type. -/
def roomFullyGraded (s : DB) (t : EvalType) (room : Room) : Bool :=
  (room.projects.filterMap (findDoc s.projects)).all
    (fun p => (p.sub t).defenses.all (fun d => d.isGraded))

/-- The room loop of `getDefenseBydId`: a room passing the every-policy
has `isCompleted` set; every room is saved; a failing room clears the
running all-rooms flag. -/
def getDefenseRooms (t : EvalType) : List Nat → DB → Bool → DB × Bool
  | [], s, allC => (s, allC)
  | rid :: rest, s, allC =>
    match findDoc s.rooms rid with
    | none => getDefenseRooms t rest s allC
    | some room =>
      let isGradedStatus := roomFullyGraded s t room
      let room' := if isGradedStatus then { room with isCompleted := true } else room
      getDefenseRooms t rest
        { s with rooms := updateDoc s.rooms rid (fun _ => room') }
        (allC && isGradedStatus)

/-- `getDefenseBydId` (success path): load the defense, recompute room
completion under the every-defense-object policy, persist every room, set
the defense status to complete when all rooms passed, and save the
defense.  No session/transaction wraps any of these writes. -/
def getDefenseBydId (defenseId : Nat) (s : DB) : DB × Option Defense :=
  match findDoc s.defenses defenseId with
  | none => (s, none)
  | some defense =>
    let out := getDefenseRooms defense.defenseType defense.rooms s true
    let defense' :=
      if out.2 then { defense with status := eventStatusList.complete } else defense
    ({ out.1 with defenses := updateDoc out.1.defenses defenseId (fun _ => defense') },
      some defense')

/-! ## Store lemmas -/

theorem findDoc_updateDoc_self (l : List (Nat × α)) (i : Nat) (f : α → α) :
    findDoc (updateDoc l i f) i = (findDoc l i).map f := by
  induction l with
  | nil => rfl
  | cons hd tl ih =>
    obtain ⟨k, v⟩ := hd
    simp only [findDoc, updateDoc, List.map_cons] at *
    by_cases h : k = i
    · rw [if_pos h]
      rw [List.find?_cons_of_pos _ (by simp [h]), List.find?_cons_of_pos _ (by simp [h])]
      simp
    · rw [if_neg h]
      rw [List.find?_cons_of_neg _ (by simp [h]), List.find?_cons_of_neg _ (by simp [h])]
      exact ih

theorem findDoc_updateDoc_ne (l : List (Nat × α)) (i j : Nat) (f : α → α) (h : j ≠ i) :
    findDoc (updateDoc l j f) i = findDoc l i := by
  induction l with
  | nil => rfl
  | cons hd tl ih =>
    obtain ⟨k, v⟩ := hd
    simp only [findDoc, updateDoc, List.map_cons] at *
    by_cases hk : k = j
    · rw [if_pos hk]
      have hki : ¬ k = i := by rw [hk]; exact h
      rw [List.find?_cons_of_neg _ (by simp [hki]), List.find?_cons_of_neg _ (by simp [hki])]
      exact ih
    · rw [if_neg hk]
      by_cases hki : k = i
      · rw [List.find?_cons_of_pos _ (by simp [hki]), List.find?_cons_of_pos _ (by simp [hki])]
      · rw [List.find?_cons_of_neg _ (by simp [hki]), List.find?_cons_of_neg _ (by simp [hki])]
        exact ih

/-- The grading flags of one project for one evaluation type: the
`(oid, isGraded)` list of its defense-objects plus `hasGraduated`. -/
def flagsOf (p : Project) (t : EvalType) : List (Nat × Bool) × Bool :=
  ((p.sub t).defenses.map (fun d => (d.oid, d.isGraded)), (p.sub t).hasGraduated)

/-- The grading flags of a stored project. -/
def projFlags (s : DB) (projectId : Nat) (t : EvalType) : Option (List (Nat × Bool) × Bool) :=
  (findDoc s.projects projectId).map (fun p => flagsOf p t)

theorem sub_setSub_self (p : Project) (t : EvalType) (se : SubEvent) :
    (p.setSub t se).sub t = se := by
  cases t <;> rfl

theorem flagsOf_status (p : Project) (c : Nat) (t : EvalType) :
    flagsOf { p with status := c } t = flagsOf p t := by
  cases t <;> rfl

theorem flagsOf_setSub (p : Project) (t t' : EvalType) (se' : SubEvent)
    (hd : se'.defenses = (p.sub t').defenses)
    (hg : se'.hasGraduated = (p.sub t').hasGraduated) :
    flagsOf (p.setSub t' se') t = flagsOf p t := by
  cases t <;> cases t' <;> simp_all [flagsOf, Project.sub, Project.setSub]

theorem projFlags_of_projects_eq (s s' : DB) (pid : Nat) (t : EvalType)
    (hproj : s'.projects = s.projects) :
    projFlags s' pid t = projFlags s pid t := by
  unfold projFlags
  rw [hproj]

theorem projFlags_of_projects_update (s s' : DB) (i pid : Nat) (t : EvalType)
    (f : Project → Project) (hproj : s'.projects = updateDoc s.projects i f)
    (hf : ∀ p, flagsOf (f p) t = flagsOf p t) :
    projFlags s' pid t = projFlags s pid t := by
  unfold projFlags
  rw [hproj]
  by_cases hi : pid = i
  · subst hi
    rw [findDoc_updateDoc_self]
    cases findDoc s.projects pid <;> simp [hf]
  · rw [findDoc_updateDoc_ne _ _ _ _ (fun he => hi he.symm)]

theorem projFlags_processStudentPassing (t' : EvalType) (pid' : Nat) (s : DB) (sid pid : Nat)
    (t : EvalType) :
    projFlags (processStudentPassing t' pid' s sid) pid t = projFlags s pid t := by
  unfold processStudentPassing
  split
  · rfl
  · dsimp only
    split
    · exact projFlags_of_projects_update s _ pid' pid t _ rfl
        (fun p => flagsOf_status p _ t)
    · exact projFlags_of_projects_eq s _ pid t rfl

theorem projFlags_processStudentFailing (t' : EvalType) (pid' : Nat) (j : Judgement)
    (s : DB) (sid pid : Nat) (t : EvalType) :
    projFlags (processStudentFailing t' pid' j s sid) pid t = projFlags s pid t := by
  unfold processStudentFailing
  split
  · rfl
  · dsimp only
    split
    · exact projFlags_of_projects_eq s _ pid t rfl
    · split
      · split
        · exact projFlags_of_projects_update s _ pid' pid t _ rfl
            (fun p => flagsOf_status p _ t)
        · exact projFlags_of_projects_eq s _ pid t rfl
      · exact projFlags_of_projects_eq s _ pid t rfl

theorem projFlags_foldl (g : DB → Nat → DB) (pid : Nat) (t : EvalType)
    (hg : ∀ s x, projFlags (g s x) pid t = projFlags s pid t) :
    ∀ (l : List Nat) (s : DB), projFlags (l.foldl g s) pid t = projFlags s pid t := by
  intro l
  induction l with
  | nil => intro s; rfl
  | cons hd tl ih => intro s; rw [List.foldl_cons, ih, hg]

theorem projFlags_updateStudentProgress (project : Project) (pid' : Nat) (t' : EvalType)
    (pe : ProjectEval) (s : DB) (pid : Nat) (t : EvalType) :
    projFlags (updateStudentProgressStatusWithSession project pid' t' pe s) pid t
      = projFlags s pid t := by
  unfold updateStudentProgressStatusWithSession
  split
  · exact projFlags_foldl _ _ _
      (fun s x => projFlags_processStudentPassing t' pid' s x pid t) _ _
  · dsimp only
    split
    · rw [projFlags_of_projects_update
        (List.foldl (processStudentFailing t' pid' pe.judgement) s project.teamMembers) _ pid' pid t
        (fun p => p.setSub t' { p.sub t' with report := none }) rfl
        (fun p => flagsOf_setSub p t t' _ rfl rfl)]
      exact projFlags_foldl _ _ _
        (fun s x => projFlags_processStudentFailing t' pid' pe.judgement s x pid t) _ _
    · exact projFlags_foldl _ _ _
        (fun s x => projFlags_processStudentFailing t' pid' pe.judgement s x pid t) _ _

theorem cascadeRooms_projects (t : EvalType) (faults : Nat → Bool) :
    ∀ (ids : List Nat) (s : DB) (b : Bool),
      (cascadeRooms t faults ids s b).1.projects = s.projects := by
  intro ids
  induction ids with
  | nil => intro s b; rfl
  | cons rid rest ih =>
    intro s b
    unfold cascadeRooms
    split
    · exact ih s b
    · dsimp only
      split
      · split
        · rfl
        · rw [ih]
      · exact ih s _

theorem checkAndUpdate_projects (defenseId : Nat) (t : EvalType) (faults : Nat → Bool) (s : DB) :
    (checkAndUpdateDefenseCompletionWithSession defenseId t faults s).projects = s.projects := by
  unfold checkAndUpdateDefenseCompletionWithSession
  split
  · rfl
  · rename_i defense _
    have hc := cascadeRooms_projects t faults defense.rooms s true
    split
    · rename_i heq
      rw [heq] at hc
      exact hc
    · rename_i s1 allC heq
      rw [heq] at hc
      split
      · exact hc
      · exact hc

theorem clearAccess_projects (evaluatorId defenseId roomId : Nat) (t : EvalType) (s : DB) :
    (clearEvaluatorAccessCodesWithSession evaluatorId defenseId roomId t s).projects
      = s.projects := by
  unfold clearEvaluatorAccessCodesWithSession
  dsimp only
  repeat' split
  all_goals rfl

theorem createEval_projects (ie : List IndividualEval) (pe : ProjectEval)
    (projectId evaluatorId defenseId eventId : Nat) (t' : EvalType) (s : DB) :
    (createEvaluationRecordWithSession ie pe projectId evaluatorId defenseId
        eventId t' s).1.projects
      = updateDoc s.projects projectId (fun p =>
          p.setSub t' { p.sub t' with evaluations := (p.sub t').evaluations ++ [s.nextEvalId] }) := by
  rfl

theorem projFlags_createEval (ie : List IndividualEval) (pe : ProjectEval)
    (projectId evaluatorId defenseId eventId : Nat) (t' : EvalType) (s : DB)
    (pid : Nat) (t : EvalType) :
    projFlags (createEvaluationRecordWithSession ie pe projectId evaluatorId defenseId
        eventId t' s).1 pid t = projFlags s pid t := by
  exact projFlags_of_projects_update s _ projectId pid t _
    (createEval_projects ie pe projectId evaluatorId defenseId eventId t' s)
    (fun p => flagsOf_setSub p t t' _ rfl rfl)

theorem setFirstGraded_find_self (oid : Nat) :
    ∀ (l : List DefenseObj), l.any (fun d => d.oid = oid) = true →
      ((setFirstGraded oid l).find? (fun d => d.oid = oid)).map (fun d => d.isGraded)
        = some true := by
  intro l
  induction l with
  | nil => intro h; simp at h
  | cons d ds ih =>
    intro h
    by_cases hd : d.oid = oid
    · unfold setFirstGraded
      rw [if_pos hd]
      rw [List.find?_cons_of_pos _ (by simp [hd])]
      rfl
    · unfold setFirstGraded
      rw [if_neg hd]
      rw [List.find?_cons_of_neg _ (by simp [hd])]
      apply ih
      simp only [List.any_cons] at h
      simpa [hd] using h

theorem setFirstGraded_find_ne (oid oid2 : Nat) (h : oid2 ≠ oid) :
    ∀ (l : List DefenseObj),
      (setFirstGraded oid l).find? (fun d => d.oid = oid2)
        = l.find? (fun d => d.oid = oid2) := by
  intro l
  induction l with
  | nil => rfl
  | cons d ds ih =>
    by_cases hd : d.oid = oid
    · unfold setFirstGraded
      rw [if_pos hd]
      have hne : ¬ d.oid = oid2 := by rw [hd]; exact fun he => h he.symm
      rw [List.find?_cons_of_neg _ (by simp [hne]), List.find?_cons_of_neg _ (by simp [hne])]
    · unfold setFirstGraded
      rw [if_neg hd]
      by_cases hd2 : d.oid = oid2
      · rw [List.find?_cons_of_pos _ (by simp [hd2]), List.find?_cons_of_pos _ (by simp [hd2])]
      · rw [List.find?_cons_of_neg _ (by simp [hd2]), List.find?_cons_of_neg _ (by simp [hd2])]
        exact ih

theorem markDefenseGraded_spec (s : DB) (pid : Nat) (t : EvalType) (oid : Nat)
    (p : Project) (hp : findDoc s.projects pid = some p)
    (hany : (p.sub t).defenses.any (fun d => d.oid = oid) = true) :
    findDoc (markDefenseGraded s pid t oid).projects pid
      = some (p.setSub t { p.sub t with
          defenses := setFirstGraded oid (p.sub t).defenses
          hasGraduated := true }) := by
  unfold markDefenseGraded
  rw [hp]
  dsimp only
  rw [if_pos hany]
  dsimp only
  rw [findDoc_updateDoc_self, hp]
  rfl

theorem setHasEvaluatedAt_flags (evaluatorId : Nat) :
    ∀ (n : Nat) (l : List DefenseObj),
      (setHasEvaluatedAt evaluatorId n l).map (fun d => (d.oid, d.isGraded))
        = l.map (fun d => (d.oid, d.isGraded)) := by
  intro n
  induction n with
  | zero =>
    intro l
    cases l with
    | nil => rfl
    | cons d ds => rfl
  | succ m ih =>
    intro l
    cases l with
    | nil => rfl
    | cons d ds => simp [setHasEvaluatedAt, ih]

theorem flagsOf_setSub_self (p : Project) (t : EvalType) (se : SubEvent) :
    flagsOf (p.setSub t se) t
      = (se.defenses.map (fun d => (d.oid, d.isGraded)), se.hasGraduated) := by
  unfold flagsOf
  rw [sub_setSub_self]

theorem gateUpdate_some_spec (s : DB) (projectId : Nat) (t : EvalType) (evaluatorId : Nat)
    (s1 : DB) (project : Project)
    (h : gateUpdate s projectId t evaluatorId = (s1, some project)) :
    findDoc s1.projects projectId = some project ∧
    projFlags s1 projectId t = projFlags s projectId t ∧
    ∃ p, findDoc s.projects projectId = some p ∧
      project = p.setSub t { p.sub t with
        defenses := setHasEvaluatedAt evaluatorId (gatePosIdx p t) (p.sub t).defenses } := by
  unfold gateUpdate at h
  cases hp : findDoc s.projects projectId with
  | none => rw [hp] at h; simp at h
  | some p =>
    rw [hp] at h
    dsimp only at h
    by_cases hm : gateQueryMatches p t evaluatorId = true
    · rw [if_pos hm] at h
      injection h with h1 h2
      injection h2 with h2
      subst h1
      subst h2
      have hfind : findDoc (updateDoc s.projects projectId (fun _ =>
          p.setSub t { p.sub t with
            defenses := setHasEvaluatedAt evaluatorId (gatePosIdx p t) (p.sub t).defenses }))
          projectId
          = some (p.setSub t { p.sub t with
            defenses := setHasEvaluatedAt evaluatorId (gatePosIdx p t) (p.sub t).defenses }) := by
        rw [findDoc_updateDoc_self, hp]
        rfl
      have hflags : projFlags
          ({ s with projects := updateDoc s.projects projectId (fun _ =>
            p.setSub t { p.sub t with
              defenses := setHasEvaluatedAt evaluatorId (gatePosIdx p t) (p.sub t).defenses }) } : DB)
          projectId t = projFlags s projectId t := by
        unfold projFlags
        dsimp only
        rw [hfind, hp]
        dsimp only
        refine congrArg some ?_
        dsimp only
        rw [flagsOf_setSub_self]
        unfold flagsOf
        dsimp only
        rw [setHasEvaluatedAt_flags]
      exact ⟨hfind, hflags, ⟨p, rfl, rfl⟩⟩
    · rw [if_neg hm] at h
      simp at h

/-- C2: if the Gate matched and the Conflict Detector reports a
structural divergence from an already-persisted Evaluation for the same
(project, defense) pair, the submission fails with the distinct 409
conflict error and the whole transaction is rolled back: the final state
is exactly the initial state, so the Gate's already-applied write, any
Evaluation insert and any progress change are all undone. -/
theorem C2_conflict_detected_rollback
    (req : SubmitReq) (faults : Nat → Bool) (s : DB)
    (pe : ProjectEval) (projectId evaluatorId defenseId eventId roomId : Nat)
    (s1 : DB) (project : Project)
    (hpe : req.projectEvaluation = some pe)
    (hpid : req.projectId = some projectId)
    (hev : req.evaluatorId = some evaluatorId)
    (hdf : req.defenseId = some defenseId)
    (hei : req.eventId = some eventId)
    (hri : req.roomId = some roomId)
    (hne : req.individualEvaluation.isEmpty = false)
    (hgate : gateUpdate s projectId req.evaluationType evaluatorId = (s1, some project))
    (hconf : (!(findMatchingEvaluations s1 project req.evaluationType projectId defenseId).isEmpty &&
        determineConflictExistsStatus
          (findMatchingEvaluations s1 project req.evaluationType projectId defenseId)
          req.individualEvaluation pe req.evaluationType) = true) :
    submitEvaluation req faults s
      = (s, .error { message := "Conflict data detected - evaluation reverted", statusCode := 409 }) := by
  have hbody : submitEvaluationBody req faults s
      = (s1, .error { message := "Conflict data detected - evaluation reverted", statusCode := 409 }) := by
    unfold submitEvaluationBody
    rw [hpe, hpid, hev, hdf, hei, hri]
    dsimp only
    rw [hne]
    simp only [Bool.false_eq_true, if_false]
    rw [hgate]
    dsimp only
    rw [hconf]
    simp only [if_true]
  unfold submitEvaluation
  rw [hbody]

theorem submit_success_run
    (req : SubmitReq) (faults : Nat → Bool) (s : DB)
    (pe : ProjectEval) (projectId evaluatorId defenseId eventId roomId : Nat)
    (s1 : DB) (project : Project) (obj : DefenseObj)
    (hpe : req.projectEvaluation = some pe)
    (hpid : req.projectId = some projectId)
    (hev : req.evaluatorId = some evaluatorId)
    (hdf : req.defenseId = some defenseId)
    (hei : req.eventId = some eventId)
    (hri : req.roomId = some roomId)
    (hne : req.individualEvaluation.isEmpty = false)
    (hgate : gateUpdate s projectId req.evaluationType evaluatorId = (s1, some project))
    (hnc : (!(findMatchingEvaluations s1 project req.evaluationType projectId defenseId).isEmpty &&
        determineConflictExistsStatus
          (findMatchingEvaluations s1 project req.evaluationType projectId defenseId)
          req.individualEvaluation pe req.evaluationType) = false)
    (hobj : (project.sub req.evaluationType).defenses.find?
        (fun d => d.evaluators.any (fun e => e.evaluator = evaluatorId)) = some obj) :
    submitEvaluation req faults s
      = ((createEvaluationRecordWithSession req.individualEvaluation pe projectId evaluatorId
            defenseId eventId req.evaluationType
            (if (obj.evaluators.all (fun e => e.hasEvaluated) && !obj.isGraded) = true then
              clearEvaluatorAccessCodesWithSession evaluatorId defenseId roomId req.evaluationType
                (checkAndUpdateDefenseCompletionWithSession defenseId req.evaluationType faults
                  (updateStudentProgressStatusWithSession project projectId req.evaluationType pe
                    (markDefenseGraded s1 projectId req.evaluationType obj.oid)))
            else s1)).1,
          .ok { newEvaluation :=
                  (createEvaluationRecordWithSession req.individualEvaluation pe projectId
                    evaluatorId defenseId eventId req.evaluationType
                    (if (obj.evaluators.all (fun e => e.hasEvaluated) && !obj.isGraded) = true then
                      clearEvaluatorAccessCodesWithSession evaluatorId defenseId roomId
                        req.evaluationType
                        (checkAndUpdateDefenseCompletionWithSession defenseId req.evaluationType
                          faults
                          (updateStudentProgressStatusWithSession project projectId
                            req.evaluationType pe
                            (markDefenseGraded s1 projectId req.evaluationType obj.oid)))
                    else s1)).2
                evaluatorId := evaluatorId
                defenseCompleted := obj.evaluators.all (fun e => e.hasEvaluated) }) := by
  have hbody : submitEvaluationBody req faults s
      = ((createEvaluationRecordWithSession req.individualEvaluation pe projectId evaluatorId
            defenseId eventId req.evaluationType
            (if (obj.evaluators.all (fun e => e.hasEvaluated) && !obj.isGraded) = true then
              clearEvaluatorAccessCodesWithSession evaluatorId defenseId roomId req.evaluationType
                (checkAndUpdateDefenseCompletionWithSession defenseId req.evaluationType faults
                  (updateStudentProgressStatusWithSession project projectId req.evaluationType pe
                    (markDefenseGraded s1 projectId req.evaluationType obj.oid)))
            else s1)).1,
          .ok { newEvaluation :=
                  (createEvaluationRecordWithSession req.individualEvaluation pe projectId
                    evaluatorId defenseId eventId req.evaluationType
                    (if (obj.evaluators.all (fun e => e.hasEvaluated) && !obj.isGraded) = true then
                      clearEvaluatorAccessCodesWithSession evaluatorId defenseId roomId
                        req.evaluationType
                        (checkAndUpdateDefenseCompletionWithSession defenseId req.evaluationType
                          faults
                          (updateStudentProgressStatusWithSession project projectId
                            req.evaluationType pe
                            (markDefenseGraded s1 projectId req.evaluationType obj.oid)))
                    else s1)).2
                evaluatorId := evaluatorId
                defenseCompleted := obj.evaluators.all (fun e => e.hasEvaluated) }) := by
    unfold submitEvaluationBody
    rw [hpe, hpid, hev, hdf, hei, hri]
    dsimp only
    rw [hne]
    simp only [Bool.false_eq_true, if_false]
    rw [hgate]
    dsimp only
    rw [hnc]
    simp only [Bool.false_eq_true, if_false]
    rw [hobj]
  unfold submitEvaluation
  rw [hbody]

theorem find_isGraded_of_flags_eq (oid : Nat) :
    ∀ (l1 l2 : List DefenseObj),
      l1.map (fun d => (d.oid, d.isGraded)) = l2.map (fun d => (d.oid, d.isGraded)) →
      (l1.find? (fun d => d.oid = oid)).map (fun d => d.isGraded)
        = (l2.find? (fun d => d.oid = oid)).map (fun d => d.isGraded) := by
  intro l1
  induction l1 with
  | nil =>
    intro l2 h
    cases l2 with
    | nil => rfl
    | cons d ds => simp at h
  | cons d1 ds1 ih =>
    intro l2 h
    cases l2 with
    | nil => simp at h
    | cons d2 ds2 =>
      simp only [List.map_cons, List.cons.injEq] at h
      obtain ⟨hhd, htl⟩ := h
      have hoid : d1.oid = d2.oid := congrArg Prod.fst hhd
      have hgr : d1.isGraded = d2.isGraded := congrArg Prod.snd hhd
      by_cases hd : d1.oid = oid
      · rw [List.find?_cons_of_pos _ (by simp [hd]),
            List.find?_cons_of_pos _ (by simp [hoid ▸ hd])]
        simp [hgr]
      · rw [List.find?_cons_of_neg _ (by simp [hd]),
            List.find?_cons_of_neg _ (by simp [hoid ▸ hd])]
        exact ih ds2 htl


theorem submit_success_project
    (req : SubmitReq) (faults : Nat → Bool) (s : DB)
    (pe : ProjectEval) (projectId evaluatorId defenseId eventId roomId : Nat)
    (s1 : DB) (project : Project) (obj : DefenseObj)
    (hpe : req.projectEvaluation = some pe)
    (hpid : req.projectId = some projectId)
    (hev : req.evaluatorId = some evaluatorId)
    (hdf : req.defenseId = some defenseId)
    (hei : req.eventId = some eventId)
    (hri : req.roomId = some roomId)
    (hne : req.individualEvaluation.isEmpty = false)
    (hgate : gateUpdate s projectId req.evaluationType evaluatorId = (s1, some project))
    (hnc : (!(findMatchingEvaluations s1 project req.evaluationType projectId defenseId).isEmpty &&
        determineConflictExistsStatus
          (findMatchingEvaluations s1 project req.evaluationType projectId defenseId)
          req.individualEvaluation pe req.evaluationType) = false)
    (hobj : (project.sub req.evaluationType).defenses.find?
        (fun d => d.evaluators.any (fun e => e.evaluator = evaluatorId)) = some obj)
    (hcond : (obj.evaluators.all (fun e => e.hasEvaluated) && !obj.isGraded) = true) :
    ∃ p', findDoc (submitEvaluation req faults s).1.projects projectId = some p' ∧
      flagsOf p' req.evaluationType
        = flagsOf (project.setSub req.evaluationType
            { project.sub req.evaluationType with
              defenses := setFirstGraded obj.oid (project.sub req.evaluationType).defenses
              hasGraduated := true }) req.evaluationType := by
  have hrun := submit_success_run req faults s pe projectId evaluatorId defenseId eventId roomId
    s1 project obj hpe hpid hev hdf hei hri hne hgate hnc hobj
  obtain ⟨hfind1, hflags1, p0, hp0, hproj⟩ :=
    gateUpdate_some_spec s projectId req.evaluationType evaluatorId s1 project hgate
  rw [hrun]
  dsimp only
  rw [if_pos hcond]
  have hany : (project.sub req.evaluationType).defenses.any
      (fun d => d.oid = obj.oid) = true := by
    have hmem := List.mem_of_find?_eq_some hobj
    exact List.any_eq_true.mpr ⟨obj, hmem, by simp⟩
  have hmark := markDefenseGraded_spec s1 projectId req.evaluationType obj.oid project
    hfind1 hany
  have hflagsA : projFlags (markDefenseGraded s1 projectId req.evaluationType obj.oid)
      projectId req.evaluationType
      = some (flagsOf (project.setSub req.evaluationType
          { project.sub req.evaluationType with
            defenses := setFirstGraded obj.oid (project.sub req.evaluationType).defenses
            hasGraduated := true }) req.evaluationType) := by
    unfold projFlags
    rw [hmark]
    rfl
  have hchain : projFlags (createEvaluationRecordWithSession req.individualEvaluation pe
      projectId evaluatorId defenseId eventId req.evaluationType
      (clearEvaluatorAccessCodesWithSession evaluatorId defenseId roomId req.evaluationType
        (checkAndUpdateDefenseCompletionWithSession defenseId req.evaluationType faults
          (updateStudentProgressStatusWithSession project projectId req.evaluationType pe
            (markDefenseGraded s1 projectId req.evaluationType obj.oid))))).1
        projectId req.evaluationType
      = some (flagsOf (project.setSub req.evaluationType
          { project.sub req.evaluationType with
            defenses := setFirstGraded obj.oid (project.sub req.evaluationType).defenses
            hasGraduated := true }) req.evaluationType) := by
    rw [projFlags_createEval]
    rw [projFlags_of_projects_eq _ _ _ _ (clearAccess_projects _ _ _ _ _)]
    rw [projFlags_of_projects_eq _ _ _ _ (checkAndUpdate_projects _ _ _ _)]
    rw [projFlags_updateStudentProgress]
    exact hflagsA
  unfold projFlags at hchain
  cases hx : findDoc (createEvaluationRecordWithSession req.individualEvaluation pe
      projectId evaluatorId defenseId eventId req.evaluationType
      (clearEvaluatorAccessCodesWithSession evaluatorId defenseId roomId req.evaluationType
        (checkAndUpdateDefenseCompletionWithSession defenseId req.evaluationType faults
          (updateStudentProgressStatusWithSession project projectId req.evaluationType pe
            (markDefenseGraded s1 projectId req.evaluationType obj.oid))))).1.projects
      projectId with
  | none => rw [hx] at hchain; simp at hchain
  | some q =>
    rw [hx] at hchain
    simp only [Option.map_some', Option.some.injEq] at hchain
    exact ⟨q, rfl, hchain⟩

theorem submit_noop_flags
    (req : SubmitReq) (faults : Nat → Bool) (s : DB)
    (pe : ProjectEval) (projectId evaluatorId defenseId eventId roomId : Nat)
    (s1 : DB) (project : Project) (obj : DefenseObj)
    (hpe : req.projectEvaluation = some pe)
    (hpid : req.projectId = some projectId)
    (hev : req.evaluatorId = some evaluatorId)
    (hdf : req.defenseId = some defenseId)
    (hei : req.eventId = some eventId)
    (hri : req.roomId = some roomId)
    (hne : req.individualEvaluation.isEmpty = false)
    (hgate : gateUpdate s projectId req.evaluationType evaluatorId = (s1, some project))
    (hnc : (!(findMatchingEvaluations s1 project req.evaluationType projectId defenseId).isEmpty &&
        determineConflictExistsStatus
          (findMatchingEvaluations s1 project req.evaluationType projectId defenseId)
          req.individualEvaluation pe req.evaluationType) = false)
    (hobj : (project.sub req.evaluationType).defenses.find?
        (fun d => d.evaluators.any (fun e => e.evaluator = evaluatorId)) = some obj)
    (hcond : (obj.evaluators.all (fun e => e.hasEvaluated) && !obj.isGraded) = false) :
    projFlags (submitEvaluation req faults s).1 projectId req.evaluationType
      = projFlags s projectId req.evaluationType := by
  have hrun := submit_success_run req faults s pe projectId evaluatorId defenseId eventId roomId
    s1 project obj hpe hpid hev hdf hei hri hne hgate hnc hobj
  obtain ⟨hfind1, hflags1, p0, hp0, hproj⟩ :=
    gateUpdate_some_spec s projectId req.evaluationType evaluatorId s1 project hgate
  rw [hrun]
  dsimp only
  rw [if_neg (by rw [hcond]; exact Bool.false_ne_true)]
  rw [projFlags_createEval]
  exact hflags1

theorem createEval_snd (ie : List IndividualEval) (pe : ProjectEval)
    (projectId evaluatorId defenseId eventId : Nat) (t : EvalType) (s : DB) :
    (createEvaluationRecordWithSession ie pe projectId evaluatorId defenseId eventId t s).2
      = { individualEvaluation := ie.map (formatIndividual t pe)
          projectEvaluation := pe
          project := projectId
          evaluator := evaluatorId
          defense := defenseId
          event := eventId
          evaluationType := t } := rfl

theorem submitEvaluationBody_snd_faults (req : SubmitReq) (faults : Nat → Bool) (s : DB) :
    (submitEvaluationBody req faults s).2
      = (submitEvaluationBody req (fun _ => false) s).2 := by
  unfold submitEvaluationBody
  cases hpe : req.projectEvaluation with
  | none => rfl
  | some pe =>
  cases hpid : req.projectId with
  | none => rfl
  | some projectId =>
  cases hev : req.evaluatorId with
  | none => rfl
  | some evaluatorId =>
  cases hdf : req.defenseId with
  | none => rfl
  | some defenseId =>
  cases hei : req.eventId with
  | none => rfl
  | some eventId =>
  cases hri : req.roomId with
  | none => rfl
  | some roomId =>
  dsimp only
  by_cases hne : req.individualEvaluation.isEmpty
  · rw [if_pos hne, if_pos hne]
  · rw [if_neg hne, if_neg hne]
    rcases hg : gateUpdate s projectId req.evaluationType evaluatorId with ⟨s1, opt⟩
    cases opt with
    | none => rfl
    | some project =>
      dsimp only
      by_cases hc : (!(findMatchingEvaluations s1 project req.evaluationType projectId
          defenseId).isEmpty &&
          determineConflictExistsStatus
            (findMatchingEvaluations s1 project req.evaluationType projectId defenseId)
            req.individualEvaluation pe req.evaluationType) = true
      · rw [if_pos hc, if_pos hc]
      · rw [if_neg hc, if_neg hc]
        cases hf : (project.sub req.evaluationType).defenses.find?
            (fun d => d.evaluators.any (fun e => e.evaluator = evaluatorId)) with
        | none => rfl
        | some obj =>
          dsimp only
          rw [createEval_snd, createEval_snd]

theorem submitEvaluation_snd (req : SubmitReq) (faults : Nat → Bool) (s : DB) :
    (submitEvaluation req faults s).2 = (submitEvaluationBody req faults s).2 := by
  unfold submitEvaluation
  rcases h : submitEvaluationBody req faults s with ⟨s', r⟩
  cases r <;> rfl

theorem roomSatisfied_of_projects_eq (s s' : DB) (t : EvalType) (room : Room)
    (h : s'.projects = s.projects) :
    roomSatisfied s' t room = roomSatisfied s t room := by
  unfold roomSatisfied
  rw [h]

theorem cascadeRooms_room_spec (t : EvalType) (faults : Nat → Bool) :
    ∀ (ids : List Nat) (s : DB) (b : Bool) (rid : Nat),
      findDoc (cascadeRooms t faults ids s b).1.rooms rid = findDoc s.rooms rid ∨
      ∃ room, findDoc s.rooms rid = some room ∧ roomSatisfied s t room = true ∧
        findDoc (cascadeRooms t faults ids s b).1.rooms rid
          = some { room with isCompleted := true } := by
  intro ids
  induction ids with
  | nil => intro s b rid; exact Or.inl rfl
  | cons r rest ih =>
    intro s b rid
    unfold cascadeRooms
    cases hr : findDoc s.rooms r with
    | none => exact ih s b rid
    | some room =>
      dsimp only
      by_cases hc : (roomSatisfied s t room && !room.isCompleted) = true
      · rw [if_pos hc]
        by_cases hfault : faults r = true
        · rw [if_pos hfault]
          exact Or.inl rfl
        · rw [if_neg hfault]
          have hproj : ({ s with
              rooms := updateDoc s.rooms r (fun rm => { rm with isCompleted := true }) } : DB).projects
              = s.projects := rfl
          have hsat : roomSatisfied s t room = true := by
            have h' := hc
            rw [Bool.and_eq_true] at h'
            exact h'.1
          rcases ih ({ s with
              rooms := updateDoc s.rooms r (fun rm => { rm with isCompleted := true }) })
              (b && roomSatisfied s t room) rid with
            h | ⟨room2, h1, h2, h3⟩
          · by_cases hrid : rid = r
            · subst hrid
              right
              refine ⟨room, hr, hsat, ?_⟩
              rw [h]
              dsimp only
              rw [findDoc_updateDoc_self, hr]
              rfl
            · left
              rw [h]
              dsimp only
              exact findDoc_updateDoc_ne _ _ _ _ (fun he => hrid he.symm)
          · by_cases hrid : rid = r
            · subst hrid
              right
              refine ⟨room, hr, hsat, ?_⟩
              dsimp only at h1
              rw [findDoc_updateDoc_self, hr] at h1
              simp only [Option.map_some', Option.some.injEq] at h1
              rw [h3, ← h1]
            · right
              dsimp only at h1
              rw [findDoc_updateDoc_ne _ _ _ _ (fun he => hrid he.symm)] at h1
              refine ⟨room2, h1, ?_, h3⟩
              rw [← roomSatisfied_of_projects_eq s _ t room2 hproj]
              exact h2
      · rw [if_neg hc]
        exact ih s (b && roomSatisfied s t room) rid

theorem checkAndUpdate_room_spec (defenseId : Nat) (t : EvalType) (faults : Nat → Bool)
    (s : DB) (rid : Nat) :
    findDoc (checkAndUpdateDefenseCompletionWithSession defenseId t faults s).rooms rid
      = findDoc s.rooms rid ∨
    ∃ room, findDoc s.rooms rid = some room ∧ roomSatisfied s t room = true ∧
      findDoc (checkAndUpdateDefenseCompletionWithSession defenseId t faults s).rooms rid
        = some { room with isCompleted := true } := by
  unfold checkAndUpdateDefenseCompletionWithSession
  cases hd : findDoc s.defenses defenseId with
  | none => exact Or.inl rfl
  | some defense =>
    dsimp only
    rcases hc : cascadeRooms t faults defense.rooms s true with ⟨s1, res⟩
    have hspec := cascadeRooms_room_spec t faults defense.rooms s true rid
    rw [hc] at hspec
    cases res with
    | none => exact hspec
    | some allC =>
      dsimp only
      by_cases hall : allC = true
      · rw [if_pos hall]
        exact hspec
      · rw [if_neg hall]
        exact hspec

theorem updateDoc_updateDoc (l : List (Nat × α)) (i : Nat) (f g : α → α) :
    updateDoc (updateDoc l i f) i g = updateDoc l i (fun a => g (f a)) := by
  induction l with
  | nil => rfl
  | cons hd tl ih =>
    obtain ⟨k, v⟩ := hd
    simp only [updateDoc, List.map_cons, List.cons.injEq] at *
    by_cases h : k = i
    · simp [h, ih]
    · simp [h, ih]

theorem processStudentFailing_other (t : EvalType) (pid : Nat) (j : Judgement)
    (s : DB) (x sid : Nat) (h : sid ≠ x) :
    findDoc (processStudentFailing t pid j s x).students sid = findDoc s.students sid := by
  unfold processStudentFailing
  split
  · rfl
  · dsimp only
    split
    · dsimp only
      exact findDoc_updateDoc_ne _ _ _ _ (fun he => h he.symm)
    · split
      · split
        · dsimp only
          exact findDoc_updateDoc_ne _ _ _ _ (fun he => h he.symm)
        · dsimp only
          exact findDoc_updateDoc_ne _ _ _ _ (fun he => h he.symm)
      · dsimp only
        exact findDoc_updateDoc_ne _ _ _ _ (fun he => h he.symm)

theorem processStudentFailing_currentYear (t : EvalType) (pid : Nat) (j : Judgement)
    (s : DB) (x : Nat) :
    (processStudentFailing t pid j s x).currentYear = s.currentYear := by
  unfold processStudentFailing
  split
  · rfl
  · dsimp only
    split
    · rfl
    · split
      · split <;> rfl
      · rfl

theorem processStudentFailing_rejected_self (t : EvalType) (pid : Nat) (s : DB) (x : Nat)
    (st : Student) (hst : findDoc s.students x = some st)
    (hres : isResolvedTier (initializeEventTypeBasedOnBatch s.currentYear st.batchNumber)
      = true) :
    findDoc (processStudentFailing t pid Judgement.REJECTED s x).students x
      = some (applyTier (initializeEventTypeBasedOnBatch s.currentYear st.batchNumber)
          (progressStatusEligibilityCode t).rejected
          { st with isAssociated := false, project := none }) ∧
    (processStudentFailing t pid Judgement.REJECTED s x).projects
      = updateDoc s.projects pid (fun p => { p with status := eventStatusList.archive }) := by
  unfold processStudentFailing
  rw [hst]
  dsimp only
  rw [if_neg (by simp), if_pos rfl, if_pos hres]
  dsimp only
  constructor
  · rw [findDoc_updateDoc_self, hst]
    rfl
  · rfl

theorem foldFailing_other (t : EvalType) (pid : Nat) (j : Judgement) :
    ∀ (members : List Nat) (s : DB) (sid : Nat), sid ∉ members →
      findDoc ((members.foldl (processStudentFailing t pid j) s)).students sid
        = findDoc s.students sid := by
  intro members
  induction members with
  | nil => intro s sid _; rfl
  | cons m ms ih =>
    intro s sid hnm
    rw [List.foldl_cons]
    rw [ih _ _ (fun hm => hnm (List.mem_cons_of_mem m hm))]
    exact processStudentFailing_other t pid j s m sid (fun he => hnm (he ▸ List.mem_cons_self m ms))

theorem foldFailing_currentYear (t : EvalType) (pid : Nat) (j : Judgement) :
    ∀ (members : List Nat) (s : DB),
      ((members.foldl (processStudentFailing t pid j) s)).currentYear = s.currentYear := by
  intro members
  induction members with
  | nil => intro s; rfl
  | cons m ms ih =>
    intro s
    rw [List.foldl_cons, ih, processStudentFailing_currentYear]

theorem foldFailing_rejected_spec (t : EvalType) (pid : Nat) :
    ∀ (members : List Nat) (s : DB), members.Nodup →
      (∀ sid ∈ members, ∃ st, findDoc s.students sid = some st ∧
        isResolvedTier (initializeEventTypeBasedOnBatch s.currentYear st.batchNumber) = true) →
      (∀ sid ∈ members, ∃ st, findDoc s.students sid = some st ∧
        findDoc ((members.foldl (processStudentFailing t pid Judgement.REJECTED) s)).students sid
          = some (applyTier (initializeEventTypeBasedOnBatch s.currentYear st.batchNumber)
              (progressStatusEligibilityCode t).rejected
              { st with isAssociated := false, project := none })) ∧
      (members ≠ [] →
        ((members.foldl (processStudentFailing t pid Judgement.REJECTED) s)).projects
          = updateDoc s.projects pid (fun p => { p with status := eventStatusList.archive })) := by
  intro members
  induction members with
  | nil =>
    intro s _ _
    exact ⟨fun sid hsid => absurd hsid (List.not_mem_nil sid), fun h => absurd rfl h⟩
  | cons m ms ih =>
    intro s hnd hhyp
    have hmnotin : m ∉ ms := (List.nodup_cons.mp hnd).1
    have hndms : ms.Nodup := (List.nodup_cons.mp hnd).2
    obtain ⟨stm, hstm, hresm⟩ := hhyp m (List.mem_cons_self m ms)
    have hstep := processStudentFailing_rejected_self t pid s m stm hstm hresm
    have hcy : (processStudentFailing t pid Judgement.REJECTED s m).currentYear
        = s.currentYear := processStudentFailing_currentYear t pid Judgement.REJECTED s m
    have hhyp' : ∀ sid ∈ ms, ∃ st,
        findDoc (processStudentFailing t pid Judgement.REJECTED s m).students sid = some st ∧
        isResolvedTier (initializeEventTypeBasedOnBatch
          (processStudentFailing t pid Judgement.REJECTED s m).currentYear st.batchNumber)
            = true := by
      intro sid hsid
      obtain ⟨st, hst, hres⟩ := hhyp sid (List.mem_cons_of_mem m hsid)
      refine ⟨st, ?_, ?_⟩
      · rw [processStudentFailing_other t pid Judgement.REJECTED s m sid
          (fun he => hmnotin (he ▸ hsid))]
        exact hst
      · rw [hcy]
        exact hres
    have ihms := ih (processStudentFailing t pid Judgement.REJECTED s m) hndms hhyp'
    constructor
    · intro sid hsid
      rcases List.mem_cons.mp hsid with heq | hmem
      · subst heq
        refine ⟨stm, hstm, ?_⟩
        rw [List.foldl_cons]
        rw [foldFailing_other t pid Judgement.REJECTED ms _ sid hmnotin]
        exact hstep.1
      · obtain ⟨st, hst', hfinal⟩ := ihms.1 sid hmem
        have hst : findDoc s.students sid = some st := by
          rw [processStudentFailing_other t pid Judgement.REJECTED s m sid
            (fun he => hmnotin (he ▸ hmem))] at hst'
          exact hst'
        refine ⟨st, hst, ?_⟩
        rw [List.foldl_cons]
        rw [hfinal, hcy]
    · intro _
      rw [List.foldl_cons]
      by_cases hms : ms = []
      · subst hms
        exact hstep.2
      · rw [ihms.2 hms, hstep.2, updateDoc_updateDoc]

theorem processStudentPassing_other (t : EvalType) (pid : Nat)
    (s : DB) (x sid : Nat) (h : sid ≠ x) :
    findDoc (processStudentPassing t pid s x).students sid = findDoc s.students sid := by
  unfold processStudentPassing
  split
  · rfl
  · dsimp only
    split
    · dsimp only
      exact findDoc_updateDoc_ne _ _ _ _ (fun he => h he.symm)
    · dsimp only
      exact findDoc_updateDoc_ne _ _ _ _ (fun he => h he.symm)

theorem processStudentPassing_currentYear (t : EvalType) (pid : Nat) (s : DB) (x : Nat) :
    (processStudentPassing t pid s x).currentYear = s.currentYear := by
  unfold processStudentPassing
  split
  · rfl
  · dsimp only
    split <;> rfl

theorem processStudentPassing_projects (t : EvalType) (pid : Nat) (s : DB) (x : Nat)
    (ht : t ≠ EvalType.final) :
    (processStudentPassing t pid s x).projects = s.projects := by
  unfold processStudentPassing
  split
  · rfl
  · dsimp only
    rw [if_neg (by simpa using ht)]

theorem processStudentPassing_self (t : EvalType) (pid : Nat) (s : DB) (x : Nat)
    (st : Student) (hst : findDoc s.students x = some st) (ht : t ≠ EvalType.final) :
    findDoc (processStudentPassing t pid s x).students x
      = some (applyTier (initializeEventTypeBasedOnBatch s.currentYear st.batchNumber)
          (progressStatusEligibilityCode t).defensePass st) := by
  unfold processStudentPassing
  rw [hst]
  dsimp only
  rw [if_neg (by simpa using ht)]
  dsimp only
  rw [findDoc_updateDoc_self, hst]
  rfl

theorem foldPassing_other (t : EvalType) (pid : Nat) :
    ∀ (members : List Nat) (s : DB) (sid : Nat), sid ∉ members →
      findDoc ((members.foldl (processStudentPassing t pid) s)).students sid
        = findDoc s.students sid := by
  intro members
  induction members with
  | nil => intro s sid _; rfl
  | cons m ms ih =>
    intro s sid hnm
    rw [List.foldl_cons]
    rw [ih _ _ (fun hm => hnm (List.mem_cons_of_mem m hm))]
    exact processStudentPassing_other t pid s m sid (fun he => hnm (he ▸ List.mem_cons_self m ms))

theorem foldPassing_currentYear (t : EvalType) (pid : Nat) :
    ∀ (members : List Nat) (s : DB),
      ((members.foldl (processStudentPassing t pid) s)).currentYear = s.currentYear := by
  intro members
  induction members with
  | nil => intro s; rfl
  | cons m ms ih =>
    intro s
    rw [List.foldl_cons, ih, processStudentPassing_currentYear]

theorem foldPassing_projects (t : EvalType) (pid : Nat) (ht : t ≠ EvalType.final) :
    ∀ (members : List Nat) (s : DB),
      ((members.foldl (processStudentPassing t pid) s)).projects = s.projects := by
  intro members
  induction members with
  | nil => intro s; rfl
  | cons m ms ih =>
    intro s
    rw [List.foldl_cons, ih, processStudentPassing_projects t pid s m ht]

theorem foldPassing_spec (t : EvalType) (pid : Nat) (ht : t ≠ EvalType.final) :
    ∀ (members : List Nat) (s : DB), members.Nodup →
      (∀ sid ∈ members, ∃ st, findDoc s.students sid = some st) →
      ∀ sid ∈ members, ∃ st, findDoc s.students sid = some st ∧
        findDoc ((members.foldl (processStudentPassing t pid) s)).students sid
          = some (applyTier (initializeEventTypeBasedOnBatch s.currentYear st.batchNumber)
              (progressStatusEligibilityCode t).defensePass st) := by
  intro members
  induction members with
  | nil =>
    intro s _ _ sid hsid
    exact absurd hsid (List.not_mem_nil sid)
  | cons m ms ih =>
    intro s hnd hhyp
    have hmnotin : m ∉ ms := (List.nodup_cons.mp hnd).1
    have hndms : ms.Nodup := (List.nodup_cons.mp hnd).2
    obtain ⟨stm, hstm⟩ := hhyp m (List.mem_cons_self m ms)
    have hcy : (processStudentPassing t pid s m).currentYear = s.currentYear :=
      processStudentPassing_currentYear t pid s m
    have hhyp' : ∀ sid ∈ ms, ∃ st,
        findDoc (processStudentPassing t pid s m).students sid = some st := by
      intro sid hsid
      obtain ⟨st, hst⟩ := hhyp sid (List.mem_cons_of_mem m hsid)
      refine ⟨st, ?_⟩
      rw [processStudentPassing_other t pid s m sid (fun he => hmnotin (he ▸ hsid))]
      exact hst
    intro sid hsid
    rcases List.mem_cons.mp hsid with heq | hmem
    · subst heq
      refine ⟨stm, hstm, ?_⟩
      rw [List.foldl_cons]
      rw [foldPassing_other t pid ms _ sid hmnotin]
      exact processStudentPassing_self t pid s sid stm hstm ht
    · obtain ⟨st, hst', hfinal⟩ := ih (processStudentPassing t pid s m) hndms hhyp' sid hmem
      have hst : findDoc s.students sid = some st := by
        rw [processStudentPassing_other t pid s m sid (fun he => hmnotin (he ▸ hmem))] at hst'
        exact hst'
      refine ⟨st, hst, ?_⟩
      rw [List.foldl_cons, hfinal, hcy]

theorem all_eq_of_mem_eq (f g : α → Bool) :
    ∀ (l : List α), (∀ x ∈ l, f x = g x) → l.all f = l.all g := by
  intro l
  induction l with
  | nil => intro _; rfl
  | cons x xs ih =>
    intro h
    simp only [List.all_cons]
    rw [h x (List.mem_cons_self x xs), ih (fun y hy => h y (List.mem_cons_of_mem x hy))]

theorem getDefenseRooms_projects (t : EvalType) :
    ∀ (ids : List Nat) (s : DB) (b : Bool),
      (getDefenseRooms t ids s b).1.projects = s.projects := by
  intro ids
  induction ids with
  | nil => intro s b; rfl
  | cons r rest ih =>
    intro s b
    unfold getDefenseRooms
    cases hr : findDoc s.rooms r with
    | none => exact ih s b
    | some room =>
      dsimp only
      rw [ih]

theorem getDefenseRooms_defenses (t : EvalType) :
    ∀ (ids : List Nat) (s : DB) (b : Bool),
      (getDefenseRooms t ids s b).1.defenses = s.defenses := by
  intro ids
  induction ids with
  | nil => intro s b; rfl
  | cons r rest ih =>
    intro s b
    unfold getDefenseRooms
    cases hr : findDoc s.rooms r with
    | none => exact ih s b
    | some room =>
      dsimp only
      rw [ih]

theorem getDefenseRooms_room_other (t : EvalType) :
    ∀ (ids : List Nat) (s : DB) (b : Bool) (rid : Nat), rid ∉ ids →
      findDoc (getDefenseRooms t ids s b).1.rooms rid = findDoc s.rooms rid := by
  intro ids
  induction ids with
  | nil => intro s b rid _; rfl
  | cons r rest ih =>
    intro s b rid hrid
    unfold getDefenseRooms
    cases hr : findDoc s.rooms r with
    | none => exact ih s b rid (fun hm => hrid (List.mem_cons_of_mem r hm))
    | some room =>
      dsimp only
      rw [ih _ _ rid (fun hm => hrid (List.mem_cons_of_mem r hm))]
      dsimp only
      exact findDoc_updateDoc_ne _ _ _ _
        (fun he => hrid (he ▸ List.mem_cons_self r rest))

theorem roomFullyGraded_of_projects_eq (s s' : DB) (t : EvalType) (room : Room)
    (h : s'.projects = s.projects) :
    roomFullyGraded s' t room = roomFullyGraded s t room := by
  unfold roomFullyGraded
  rw [h]

theorem getDefenseRooms_room_spec (t : EvalType) :
    ∀ (ids : List Nat) (s : DB) (b : Bool), ids.Nodup →
      ∀ rid ∈ ids, ∀ room, findDoc s.rooms rid = some room →
        findDoc (getDefenseRooms t ids s b).1.rooms rid
          = some (if roomFullyGraded s t room then { room with isCompleted := true }
              else room) := by
  intro ids
  induction ids with
  | nil =>
    intro s b _ rid hrid
    exact absurd hrid (List.not_mem_nil rid)
  | cons r rest ih =>
    intro s b hnd rid hrid room hroom
    have hrnotin : r ∉ rest := (List.nodup_cons.mp hnd).1
    have hndr : rest.Nodup := (List.nodup_cons.mp hnd).2
    unfold getDefenseRooms
    rcases List.mem_cons.mp hrid with heq | hmem
    · subst heq
      rw [hroom]
      dsimp only
      rw [getDefenseRooms_room_other t rest _ _ rid hrnotin]
      dsimp only
      rw [findDoc_updateDoc_self, hroom]
      by_cases hg : roomFullyGraded s t room = true
      · rw [if_pos hg]
        rfl
      · rw [if_neg hg]
        rfl
    · have hne : rid ≠ r := fun he => hrnotin (he ▸ hmem)
      cases hr : findDoc s.rooms r with
      | none => exact ih s b hndr rid hmem room hroom
      | some room_r =>
        dsimp only
        have hproj : ({ s with rooms := updateDoc s.rooms r (fun _ =>
            if roomFullyGraded s t room_r then { room_r with isCompleted := true }
            else room_r) } : DB).projects = s.projects := rfl
        have hroom' : findDoc ({ s with rooms := updateDoc s.rooms r (fun _ =>
            if roomFullyGraded s t room_r then { room_r with isCompleted := true }
            else room_r) } : DB).rooms rid = some room := by
          dsimp only
          rw [findDoc_updateDoc_ne _ _ _ _ (fun he => hne he.symm)]
          exact hroom
        have := ih ({ s with rooms := updateDoc s.rooms r (fun _ =>
            if roomFullyGraded s t room_r then { room_r with isCompleted := true }
            else room_r) }) (b && roomFullyGraded s t room_r) hndr rid hmem room hroom'
        rw [roomFullyGraded_of_projects_eq s _ t room hproj] at this
        convert this using 3

/-- The all-rooms test `getDefenseBydId` effectively computes: every
stored room of the list passes the every-defense-object policy (missing
room references are skipped by populate and do not block completion). -/
def allRoomsFullyGraded (s : DB) (t : EvalType) (roomIds : List Nat) : Bool :=
  roomIds.all (fun rid =>
    ((findDoc s.rooms rid).map (fun room => roomFullyGraded s t room)).getD true)

theorem getDefenseRooms_flag_spec (t : EvalType) :
    ∀ (ids : List Nat) (s : DB) (b : Bool), ids.Nodup →
      (getDefenseRooms t ids s b).2 = (b && allRoomsFullyGraded s t ids) := by
  intro ids
  induction ids with
  | nil =>
    intro s b _
    simp [getDefenseRooms, allRoomsFullyGraded]
  | cons r rest ih =>
    intro s b hnd
    have hrnotin : r ∉ rest := (List.nodup_cons.mp hnd).1
    have hndr : rest.Nodup := (List.nodup_cons.mp hnd).2
    unfold getDefenseRooms
    cases hr : findDoc s.rooms r with
    | none =>
      rw [ih s b hndr]
      unfold allRoomsFullyGraded
      rw [List.all_cons, hr]
      simp
    | some room =>
      dsimp only
      rw [ih _ _ hndr]
      unfold allRoomsFullyGraded
      rw [List.all_cons, hr]
      have hall : rest.all (fun rid =>
          ((findDoc ({ s with rooms := updateDoc s.rooms r (fun _ =>
              if roomFullyGraded s t room then { room with isCompleted := true }
              else room) } : DB).rooms rid).map
            (fun rm => roomFullyGraded ({ s with rooms := updateDoc s.rooms r (fun _ =>
              if roomFullyGraded s t room then { room with isCompleted := true }
              else room) } : DB) t rm)).getD true)
          = rest.all (fun rid =>
            ((findDoc s.rooms rid).map (fun rm => roomFullyGraded s t rm)).getD true) := by
        apply all_eq_of_mem_eq
        intro x hx
        have hxr : x ≠ r := fun he => hrnotin (he ▸ hx)
        have hfind : findDoc ({ s with rooms := updateDoc s.rooms r (fun _ =>
            if roomFullyGraded s t room then { room with isCompleted := true }
            else room) } : DB).rooms x = findDoc s.rooms x := by
          dsimp only
          exact findDoc_updateDoc_ne _ _ _ _ (fun he => hxr he.symm)
        rw [hfind]
        cases hfx : findDoc s.rooms x with
        | none => rfl
        | some rx =>
          simp only [Option.map_some', Option.getD_some]
          exact roomFullyGraded_of_projects_eq s _ t rx rfl
      rw [hall]
      simp [Bool.and_assoc]

theorem getDefenseBydId_spec (s : DB) (defenseId : Nat) (defense : Defense)
    (hd : findDoc s.defenses defenseId = some defense) (hnd : defense.rooms.Nodup) :
    (getDefenseBydId defenseId s).2
      = some (if allRoomsFullyGraded s defense.defenseType defense.rooms then
          { defense with status := eventStatusList.complete } else defense) ∧
    findDoc (getDefenseBydId defenseId s).1.defenses defenseId
      = some (if allRoomsFullyGraded s defense.defenseType defense.rooms then
          { defense with status := eventStatusList.complete } else defense) ∧
    (∀ rid ∈ defense.rooms, ∀ room, findDoc s.rooms rid = some room →
      findDoc (getDefenseBydId defenseId s).1.rooms rid
        = some (if roomFullyGraded s defense.defenseType room then
            { room with isCompleted := true } else room)) := by
  unfold getDefenseBydId
  rcases hfd : findDoc s.defenses defenseId with _ | d
  · rw [hfd] at hd
    cases hd
  · rw [hfd] at hd
    injection hd with hd
    subst hd
    dsimp only
    rw [getDefenseRooms_flag_spec d.defenseType d.rooms s true hnd]
    rw [Bool.true_and]
    refine ⟨rfl, ?_, ?_⟩
    · rw [findDoc_updateDoc_self]
      rw [getDefenseRooms_defenses, hfd]
      rfl
    · intro rid hrid room hroom
      exact getDefenseRooms_room_spec d.defenseType d.rooms s true hnd rid hrid
        room hroom

theorem applyTier_resolved (et : String) (code : Nat) (st : Student)
    (h : isResolvedTier et = true) :
    applyTier et code st = { st with progressStatus := tierStatusFor et code } := by
  unfold applyTier
  rw [if_pos h]

/-- C7: for a proposal-stage submission judged REJECTED, the Progress
Projector dissociates every team member (association flag cleared,
project reference removed), sets each member's progress-status to the
tier-specific rejected code for their cohort tier, archives the project,
and clears the stored proposal report. -/
theorem C7_proposal_rejected (project : Project) (projectId : Nat) (pe : ProjectEval)
    (s : DB)
    (hj : pe.judgement = Judgement.REJECTED)
    (hnd : project.teamMembers.Nodup)
    (hmem : project.teamMembers ≠ [])
    (hstudents : ∀ sid ∈ project.teamMembers, ∃ st, findDoc s.students sid = some st ∧
      isResolvedTier (initializeEventTypeBasedOnBatch s.currentYear st.batchNumber) = true)
    (p0 : Project) (hp0 : findDoc s.projects projectId = some p0) :
    (∀ sid ∈ project.teamMembers, ∃ st st',
      findDoc s.students sid = some st ∧
      findDoc (updateStudentProgressStatusWithSession project projectId EvalType.proposal pe
        s).students sid = some st' ∧
      st'.isAssociated = false ∧ st'.project = none ∧
      st'.progressStatus = tierStatusFor
        (initializeEventTypeBasedOnBatch s.currentYear st.batchNumber)
        (progressStatusEligibilityCode EvalType.proposal).rejected) ∧
    (∃ p', findDoc (updateStudentProgressStatusWithSession project projectId EvalType.proposal
        pe s).projects projectId = some p' ∧
      p'.status = eventStatusList.archive ∧ p'.proposal.report = none) := by
  unfold updateStudentProgressStatusWithSession
  rw [hj]
  rw [if_neg (by simp [isPassingJudgment])]
  rw [if_pos (by simp [isReportClearingJudgement])]
  have hspec := foldFailing_rejected_spec EvalType.proposal projectId project.teamMembers s
    hnd hstudents
  constructor
  · intro sid hsid
    obtain ⟨st, hst, hfinal⟩ := hspec.1 sid hsid
    obtain ⟨_, _, hres⟩ := hstudents sid hsid
    have hres' : isResolvedTier
        (initializeEventTypeBasedOnBatch s.currentYear st.batchNumber) = true := by
      rename_i st2 hst2
      rw [hst] at hst2
      injection hst2 with hst2
      rw [hst2]
      exact hres
    refine ⟨st, applyTier (initializeEventTypeBasedOnBatch s.currentYear st.batchNumber)
      (progressStatusEligibilityCode EvalType.proposal).rejected
      { st with isAssociated := false, project := none }, hst, ?_, ?_, ?_, ?_⟩
    · exact hfinal
    · rw [applyTier_resolved _ _ _ hres']
    · rw [applyTier_resolved _ _ _ hres']
    · rw [applyTier_resolved _ _ _ hres']
  · have hpr := hspec.2 hmem
    refine ⟨({ p0 with status := eventStatusList.archive } : Project).setSub EvalType.proposal
        { ({ p0 with status := eventStatusList.archive } : Project).sub EvalType.proposal
          with report := none }, ?_, ?_, ?_⟩
    · dsimp only
      rw [findDoc_updateDoc_self, hpr, findDoc_updateDoc_self, hp0]
      rfl
    · rfl
    · rfl

/-- C10: a mid-stage PROGRESS-NOT-SATISFACTORY judgement is classified as
passing: the Progress Projector's run is identical to the
PROGRESS-SATISFACTORY run, every team member is advanced to the
tier-specific mid defense-pass code (association untouched), and the
non-passing branch (defense-fail codes, project archive, report
clearing) is never taken — the projects store is untouched. -/
theorem C10_mid_not_satisfactory_passes (project : Project) (projectId : Nat)
    (pe : ProjectEval) (s : DB)
    (hj : pe.judgement = Judgement.PROGRESS_NOT_SATISFACTORY)
    (hnd : project.teamMembers.Nodup)
    (hstudents : ∀ sid ∈ project.teamMembers, ∃ st, findDoc s.students sid = some st ∧
      isResolvedTier (initializeEventTypeBasedOnBatch s.currentYear st.batchNumber) = true) :
    updateStudentProgressStatusWithSession project projectId EvalType.mid pe s
      = updateStudentProgressStatusWithSession project projectId EvalType.mid
          { pe with judgement := Judgement.PROGRESS_SATISFACTORY } s ∧
    (∀ sid ∈ project.teamMembers, ∃ st st',
      findDoc s.students sid = some st ∧
      findDoc (updateStudentProgressStatusWithSession project projectId EvalType.mid pe
        s).students sid = some st' ∧
      st'.progressStatus = tierStatusFor
        (initializeEventTypeBasedOnBatch s.currentYear st.batchNumber)
        (progressStatusEligibilityCode EvalType.mid).defensePass ∧
      st'.isAssociated = st.isAssociated ∧ st'.project = st.project) ∧
    (updateStudentProgressStatusWithSession project projectId EvalType.mid pe s).projects
      = s.projects := by
  have hrun : updateStudentProgressStatusWithSession project projectId EvalType.mid pe s
      = project.teamMembers.foldl (processStudentPassing EvalType.mid projectId) s := by
    unfold updateStudentProgressStatusWithSession
    rw [hj]
    rfl
  refine ⟨?_, ?_, ?_⟩
  · rw [hrun]
    rfl
  · intro sid hsid
    obtain ⟨st, hst, hres⟩ := hstudents sid hsid
    obtain ⟨st2, hst2, hfinal⟩ := foldPassing_spec EvalType.mid projectId (by decide)
      project.teamMembers s hnd
      (fun x hx => (hstudents x hx).imp (fun st h => h.1)) sid hsid
    have heq : st2 = st := by
      rw [hst] at hst2
      injection hst2 with h
      exact h.symm
    subst heq
    refine ⟨st2, applyTier (initializeEventTypeBasedOnBatch s.currentYear st2.batchNumber)
      (progressStatusEligibilityCode EvalType.mid).defensePass st2, hst, ?_, ?_, ?_, ?_⟩
    · rw [hrun]
      exact hfinal
    · rw [applyTier_resolved _ _ _ hres]
    · rw [applyTier_resolved _ _ _ hres]
    · rw [applyTier_resolved _ _ _ hres]
  · rw [hrun]
    exact foldPassing_projects EvalType.mid projectId (by decide) project.teamMembers s

/-- C3: when, on the gate-updated document, every evaluator entry of the
matched defense-object has `hasEvaluated = true` and its `isGraded` is
still false, the committed state marks that defense-object graded and
the type-level `hasGraduated` true; when the completion condition fails,
no grading flag of the project is changed by the submission (the
committed grading flags equal the initial ones). -/
theorem C3_completion_flags
    (req : SubmitReq) (faults : Nat → Bool) (s : DB)
    (pe : ProjectEval) (projectId evaluatorId defenseId eventId roomId : Nat)
    (s1 : DB) (project : Project) (obj : DefenseObj)
    (hpe : req.projectEvaluation = some pe)
    (hpid : req.projectId = some projectId)
    (hev : req.evaluatorId = some evaluatorId)
    (hdf : req.defenseId = some defenseId)
    (hei : req.eventId = some eventId)
    (hri : req.roomId = some roomId)
    (hne : req.individualEvaluation.isEmpty = false)
    (hgate : gateUpdate s projectId req.evaluationType evaluatorId = (s1, some project))
    (hnc : (!(findMatchingEvaluations s1 project req.evaluationType projectId defenseId).isEmpty &&
        determineConflictExistsStatus
          (findMatchingEvaluations s1 project req.evaluationType projectId defenseId)
          req.individualEvaluation pe req.evaluationType) = false)
    (hobj : (project.sub req.evaluationType).defenses.find?
        (fun d => d.evaluators.any (fun e => e.evaluator = evaluatorId)) = some obj) :
    ((obj.evaluators.all (fun e => e.hasEvaluated) && !obj.isGraded) = true →
      ∃ p', findDoc (submitEvaluation req faults s).1.projects projectId = some p' ∧
        (p'.sub req.evaluationType).hasGraduated = true ∧
        ((p'.sub req.evaluationType).defenses.find? (fun d => d.oid = obj.oid)).map
          (fun d => d.isGraded) = some true) ∧
    ((obj.evaluators.all (fun e => e.hasEvaluated) && !obj.isGraded) = false →
      projFlags (submitEvaluation req faults s).1 projectId req.evaluationType
        = projFlags s projectId req.evaluationType) := by
  constructor
  · intro hcond
    obtain ⟨p', hp', hfl⟩ := submit_success_project req faults s pe projectId evaluatorId
      defenseId eventId roomId s1 project obj hpe hpid hev hdf hei hri hne hgate hnc hobj hcond
    have hany : (project.sub req.evaluationType).defenses.any
        (fun d => d.oid = obj.oid) = true :=
      List.any_eq_true.mpr ⟨obj, List.mem_of_find?_eq_some hobj, by simp⟩
    refine ⟨p', hp', ?_, ?_⟩
    · have h2 := congrArg Prod.snd hfl
      rw [flagsOf_setSub_self] at h2
      unfold flagsOf at h2
      exact h2
    · have h1 := congrArg Prod.fst hfl
      rw [flagsOf_setSub_self] at h1
      unfold flagsOf at h1
      dsimp only at h1
      rw [find_isGraded_of_flags_eq obj.oid _ _ h1]
      exact setFirstGraded_find_self obj.oid _ hany
  · intro hcond
    exact submit_noop_flags req faults s pe projectId evaluatorId defenseId eventId roomId
      s1 project obj hpe hpid hev hdf hei hri hne hgate hnc hobj hcond

/-- C4 (amended): the type-level `hasGraduated` flag is written together
with the first defense-object that completes: whenever the completion
condition holds for the matched defense-object, the committed state has
`hasGraduated = true` even while a different defense-object of the same
evaluation type is still ungraded. -/
theorem C4_hasGraduated_per_defense_object
    (req : SubmitReq) (faults : Nat → Bool) (s : DB)
    (pe : ProjectEval) (projectId evaluatorId defenseId eventId roomId : Nat)
    (s1 : DB) (project : Project) (obj : DefenseObj)
    (hpe : req.projectEvaluation = some pe)
    (hpid : req.projectId = some projectId)
    (hev : req.evaluatorId = some evaluatorId)
    (hdf : req.defenseId = some defenseId)
    (hei : req.eventId = some eventId)
    (hri : req.roomId = some roomId)
    (hne : req.individualEvaluation.isEmpty = false)
    (hgate : gateUpdate s projectId req.evaluationType evaluatorId = (s1, some project))
    (hnc : (!(findMatchingEvaluations s1 project req.evaluationType projectId defenseId).isEmpty &&
        determineConflictExistsStatus
          (findMatchingEvaluations s1 project req.evaluationType projectId defenseId)
          req.individualEvaluation pe req.evaluationType) = false)
    (hobj : (project.sub req.evaluationType).defenses.find?
        (fun d => d.evaluators.any (fun e => e.evaluator = evaluatorId)) = some obj)
    (hcond : (obj.evaluators.all (fun e => e.hasEvaluated) && !obj.isGraded) = true)
    (oid2 : Nat) (obj2 : DefenseObj) (hne2 : oid2 ≠ obj.oid)
    (hobj2 : (project.sub req.evaluationType).defenses.find? (fun d => d.oid = oid2)
      = some obj2)
    (hg2 : obj2.isGraded = false) :
    ∃ p', findDoc (submitEvaluation req faults s).1.projects projectId = some p' ∧
      (p'.sub req.evaluationType).hasGraduated = true ∧
      ((p'.sub req.evaluationType).defenses.find? (fun d => d.oid = oid2)).map
        (fun d => d.isGraded) = some false := by
  obtain ⟨p', hp', hfl⟩ := submit_success_project req faults s pe projectId evaluatorId
    defenseId eventId roomId s1 project obj hpe hpid hev hdf hei hri hne hgate hnc hobj hcond
  refine ⟨p', hp', ?_, ?_⟩
  · have h2 := congrArg Prod.snd hfl
    rw [flagsOf_setSub_self] at h2
    unfold flagsOf at h2
    exact h2
  · have h1 := congrArg Prod.fst hfl
    rw [flagsOf_setSub_self] at h1
    unfold flagsOf at h1
    dsimp only at h1
    rw [find_isGraded_of_flags_eq oid2 _ _ h1]
    rw [setFirstGraded_find_ne obj.oid oid2 hne2]
    rw [hobj2]
    simp [hg2]

/-- C5 (amended): storage failures inside the three-level completion
recomputation are caught and logged by
`checkAndUpdateDefenseCompletionWithSession`; they never abort the
submission or change its outcome — the response of `submitEvaluation` is
identical to the fault-free run (completion writes applied before the
failure simply stay in the committed transaction). -/
theorem C5_cascade_failures_swallowed (req : SubmitReq) (faults : Nat → Bool) (s : DB) :
    (submitEvaluation req faults s).2 = (submitEvaluation req (fun _ => false) s).2 := by
  rw [submitEvaluation_snd, submitEvaluation_snd]
  exact submitEvaluationBody_snd_faults req faults s

/-- C6 (amended): room completion is one-directional, not an iff: the
submission cascade newly marks a room completed only when every stored
project of the room has at least one graded defense-object for the
evaluation type (`roomSatisfied`); completed flags are never cleared,
and `getDefenseBydId` recomputes under a different policy, so the
biconditional of the original claim does not hold as an invariant. -/
theorem C6_room_completion_one_directional (defenseId : Nat) (t : EvalType)
    (faults : Nat → Bool) (s : DB) (rid : Nat)
    (h0 : (findDoc s.rooms rid).map (fun r => r.isCompleted) = some false)
    (h1 : (findDoc (checkAndUpdateDefenseCompletionWithSession defenseId t faults s).rooms
        rid).map (fun r => r.isCompleted) = some true) :
    ∃ room, findDoc s.rooms rid = some room ∧ roomSatisfied s t room = true ∧
      findDoc (checkAndUpdateDefenseCompletionWithSession defenseId t faults s).rooms rid
        = some { room with isCompleted := true } := by
  rcases checkAndUpdate_room_spec defenseId t faults s rid with h | spec
  · rw [h] at h1
    rw [h1] at h0
    simp at h0
  · exact spec

/-- All type-specific scored fields of a formatted individual entry are
the zero value "0" wherever they are set. -/
def typeScoredFieldsZeroed (f : FormattedIndividual) : Bool :=
  f.projectTitleAndAbstract.getD "0" = "0" && f.project.getD "0" = "0" &&
  f.objective.getD "0" = "0" && f.teamWork.getD "0" = "0" &&
  f.documentation.getD "0" = "0" && f.plagiarism.getD "0" = "0" &&
  f.feedbackIncorporated.getD "0" = "0" && f.workProgress.getD "0" = "0" &&
  f.contributionInWork.getD "0" = "0" && f.projectTitle.getD "0" = "0" &&
  f.volume.getD "0" = "0" && f.creativity.getD "0" = "0" &&
  f.analysisAndDesign.getD "0" = "0" && f.toolAndTechniques.getD "0" = "0" &&
  f.accomplished.getD "0" = "0" && f.demo.getD "0" = "0"

theorem formatIndividual_absent_zeroed (t : EvalType) (pe : ProjectEval) (e : IndividualEval)
    (h : e.absent.getD false = true) :
    typeScoredFieldsZeroed (formatIndividual t pe e) = true := by
  cases t <;> simp [formatIndividual, typeScoredFieldsZeroed, h]

/-- C8 (amended): in the canonical Evaluation record written by the
Record Writer, every individual entry marked absent has all of its
type-specific scored fields forced to "0"; `performanceAtPresentation`,
however, is stored as submitted (defaulted only when missing or empty),
so it is not forced to zero for absent members. -/
theorem C8_absent_zeroes_type_fields (individualEvaluation : List IndividualEval)
    (pe : ProjectEval) (projectId evaluatorId defenseId eventId : Nat) (t : EvalType)
    (s : DB) (f : FormattedIndividual)
    (hf : f ∈ (createEvaluationRecordWithSession individualEvaluation pe projectId
      evaluatorId defenseId eventId t s).2.individualEvaluation)
    (habs : f.absent = true) :
    typeScoredFieldsZeroed f = true ∧
    ∃ e ∈ individualEvaluation, f = formatIndividual t pe e ∧
      f.performanceAtPresentation = orZero e.performanceAtPresentation := by
  rw [createEval_snd] at hf
  obtain ⟨e, he, hfe⟩ := List.mem_map.mp hf
  subst hfe
  have habs' : e.absent.getD false = true := by
    cases t <;> simpa [formatIndividual] using habs
  refine ⟨formatIndividual_absent_zeroed t pe e habs', e, he, rfl, ?_⟩
  cases t <;> rfl

theorem fullyGraded_implies_satisfied (s : DB) (t : EvalType) (room : Room)
    (hne : ∀ pid ∈ room.projects, ∀ p, findDoc s.projects pid = some p →
      (p.sub t).defenses ≠ [])
    (h : roomFullyGraded s t room = true) :
    roomSatisfied s t room = true := by
  unfold roomFullyGraded at h
  unfold roomSatisfied
  rw [List.all_eq_true] at h ⊢
  intro p hp
  obtain ⟨pid, hpid, hfind⟩ := List.mem_filterMap.mp hp
  have hdne := hne pid hpid p hfind
  have hall := h p hp
  cases hd : (p.sub t).defenses with
  | nil => exact absurd hd hdne
  | cons d ds =>
    rw [hd] at hall
    rw [List.all_cons] at hall
    rw [List.any_cons]
    have hdg : d.isGraded = true := by
      rw [Bool.and_eq_true] at hall
      exact hall.1
    rw [hdg]
    rfl

/-- C9: `getDefenseBydId` is not read-only.  On every successful fetch it
recomputes and persists completion state: every listed room is saved,
and a room's `isCompleted` is newly set exactly when every defense-object
of every stored project in the room is graded for the defense's type
(`roomFullyGraded`); the defense's status is persisted as complete
exactly when all listed rooms pass that test; and on rooms whose
projects all have at least one defense-object, that every-defense-object
policy is at least as strict as the submission cascade's
at-least-one-graded policy (`roomSatisfied`).  In this embedding the
writes go directly to the store — no transaction wraps them. -/
theorem C9_getDefenseBydId_persists_completion (s : DB) (defenseId : Nat)
    (defense : Defense)
    (hd : findDoc s.defenses defenseId = some defense)
    (hnd : defense.rooms.Nodup) :
    ((getDefenseBydId defenseId s).2
      = some (if allRoomsFullyGraded s defense.defenseType defense.rooms then
          { defense with status := eventStatusList.complete } else defense)) ∧
    (findDoc (getDefenseBydId defenseId s).1.defenses defenseId
      = some (if allRoomsFullyGraded s defense.defenseType defense.rooms then
          { defense with status := eventStatusList.complete } else defense)) ∧
    (∀ rid ∈ defense.rooms, ∀ room, findDoc s.rooms rid = some room →
      findDoc (getDefenseBydId defenseId s).1.rooms rid
        = some (if roomFullyGraded s defense.defenseType room then
            { room with isCompleted := true } else room)) ∧
    (∀ room : Room, roomFullyGraded s defense.defenseType room = true →
      (∀ pid ∈ room.projects, ∀ p, findDoc s.projects pid = some p →
        (p.sub defense.defenseType).defenses ≠ []) →
      roomSatisfied s defense.defenseType room = true) := by
  obtain ⟨ha, hb, hc⟩ := getDefenseBydId_spec s defenseId defense hd hnd
  exact ⟨ha, hb, hc, fun room h hne => fullyGraded_implies_satisfied s defense.defenseType
    room hne h⟩

/-! ## Concrete scenarios -/

/-- No storage faults injected. -/
def noFaults : Nat → Bool := fun _ => false

/-- An empty per-type sub-document. -/
def emptySub : SubEvent :=
  { defenses := [], hasGraduated := false, evaluations := [], report := none }

/-- A sample aggregate evaluation with an accepting judgement. -/
def samplePE : ProjectEval :=
  { judgement := Judgement.ACCEPTED, projectTitleAndAbstract := some "8" }

/-- A sample one-member individual-evaluation list (member present,
scored 5 on presentation). -/
def sampleIndividual : List IndividualEval :=
  [{ member := 9, performanceAtPresentation := some "5", absent := some false,
     contributionInWork := none }]

/-- The request evaluator 1 sends for project 1 / defense 3 / room 4. -/
def submitReqA : SubmitReq :=
  { individualEvaluation := sampleIndividual
    projectEvaluation := some samplePE
    projectId := some 1
    evaluatorId := some 1
    defenseId := some 3
    eventId := some 7
    evaluationType := EvalType.proposal
    roomId := some 4 }

/-- The Evaluation record evaluator 1's first (identical) submission
stored. -/
def storedEvaluation : Evaluation :=
  { individualEvaluation := sampleIndividual.map (formatIndividual EvalType.proposal samplePE)
    projectEvaluation := samplePE
    project := 1
    evaluator := 1
    defense := 3
    event := 7
    evaluationType := EvalType.proposal }

/-- Project 1 right after evaluator 1's first submission: evaluator 1's
entry is already `hasEvaluated`, co-evaluator 2 is still pending. -/
def gateBypassProject : Project :=
  { proposal :=
      { defenses := [⟨10, [⟨1, true⟩, ⟨2, false⟩], false⟩]
        hasGraduated := false
        evaluations := [5]
        report := some "r.pdf" }
    mid := emptySub
    final := emptySub
    teamMembers := []
    status := 100 }

/-- The committed state after evaluator 1's first submission. -/
def gateBypassDB : DB :=
  { projects := [(1, gateBypassProject)]
    students := []
    evaluators := [(1, { defense := [⟨3, some "ac"⟩] })]
    rooms := [(4, { projects := [1], isCompleted := false })]
    defenses := [(3, { rooms := [4], status := 100, evaluations := [5], defenseType := EvalType.proposal })]
    evaluations := [(5, storedEvaluation)]
    nextEvalId := 6
    currentYear := 2026 }

/-- `gateBypassDB` with the stored record's aggregate evaluation
structurally different from what evaluator 1 resubmits. -/
def conflictingDB : DB :=
  { gateBypassDB with evaluations :=
      [(5, { storedEvaluation with projectEvaluation :=
        { judgement := Judgement.ACCEPTED, projectTitleAndAbstract := some "9" } })] }

/-- A project with two proposal defense-objects, one per evaluator. -/
def twoDefenseProject : Project :=
  { proposal :=
      { defenses := [⟨10, [⟨1, false⟩], false⟩, ⟨11, [⟨2, false⟩], false⟩]
        hasGraduated := false
        evaluations := []
        report := none }
    mid := emptySub
    final := emptySub
    teamMembers := []
    status := 100 }

/-- A state in which evaluator 1's submission completes defense-object
10 while defense-object 11 is still pending. -/
def twoDefenseDB : DB :=
  { projects := [(1, twoDefenseProject)]
    students := []
    evaluators := [(1, { defense := [⟨3, some "ac"⟩] })]
    rooms := [(4, { projects := [1], isCompleted := false })]
    defenses := [(3, { rooms := [4], status := 100, evaluations := [], defenseType := EvalType.proposal })]
    evaluations := []
    nextEvalId := 6
    currentYear := 2026 }

/-- A second project whose proposal defense-object is already graded. -/
def gradedProject : Project :=
  { proposal :=
      { defenses := [⟨20, [⟨5, true⟩], true⟩]
        hasGraduated := true
        evaluations := []
        report := none }
    mid := emptySub
    final := emptySub
    teamMembers := []
    status := 100 }

/-- Two rooms under defense 3; evaluator 1's submission completes room 4
and room 8's only project is already graded, so a fault-free cascade
would complete both rooms and the defense. -/
def twoRoomDB : DB :=
  { projects := [(1, twoDefenseProject), (2, gradedProject)]
    students := []
    evaluators := [(1, { defense := [⟨3, some "ac"⟩] })]
    rooms := [(4, { projects := [1], isCompleted := false }),
              (8, { projects := [2], isCompleted := false })]
    defenses := [(3, { rooms := [4, 8], status := 100, evaluations := [], defenseType := EvalType.proposal })]
    evaluations := []
    nextEvalId := 6
    currentYear := 2026 }

/-- A storage fault injected on room 8's completion update. -/
def faultRoom8 : Nat → Bool := fun rid => rid = 8

/-- Room 4 holds project 1 whose proposal sub-document has an empty
defense-object list. -/
def emptyDefensesDB : DB :=
  { projects := [(1, { proposal := emptySub, mid := emptySub, final := emptySub, teamMembers := [], status := 100 })]
    students := []
    evaluators := []
    rooms := [(4, { projects := [1], isCompleted := false })]
    defenses := [(3, { rooms := [4], status := 100, evaluations := [], defenseType := EvalType.proposal })]
    evaluations := []
    nextEvalId := 6
    currentYear := 2026 }

/-- One room whose only project already has a graded defense-object, but
the room is not yet marked completed. -/
def pendingRoomDB : DB :=
  { projects := [(2, gradedProject)]
    students := []
    evaluators := []
    rooms := [(8, { projects := [2], isCompleted := false })]
    defenses := [(3, { rooms := [8], status := 100, evaluations := [], defenseType := EvalType.proposal })]
    evaluations := []
    nextEvalId := 6
    currentYear := 2026 }

/-- C1: the Gate does not enforce single-success per evaluator.  Because
the query's two dotted-path conditions may be satisfied by different
evaluator entries, evaluator 1's identical retry — after their first
submission was recorded but while co-evaluator 2 is still pending —
matches the Gate again: the retry is answered 201 instead of the
documented 409 DuplicateSubmission, and a second Evaluation record for
the same (project, defense, evaluator) triple is committed. -/
theorem C1_duplicate_gate_bypass :
    (submitEvaluation submitReqA noFaults gateBypassDB).2.isOk = true ∧
    (gateBypassDB.evaluations.filter (fun pr =>
      pr.2.project = 1 && pr.2.defense = 3 && pr.2.evaluator = 1)).length = 1 ∧
    ((submitEvaluation submitReqA noFaults gateBypassDB).1.evaluations.filter (fun pr =>
      pr.2.project = 1 && pr.2.defense = 3 && pr.2.evaluator = 1)).length = 2 := by
  decide

theorem C2_conflict_detected_rollback_witness :
    submitEvaluation submitReqA noFaults conflictingDB
      = (conflictingDB, .error { message := "Conflict data detected - evaluation reverted", statusCode := 409 }) :=
  C2_conflict_detected_rollback submitReqA noFaults conflictingDB samplePE 1 1 3 7 4
    (gateUpdate conflictingDB 1 EvalType.proposal 1).1
    ((gateUpdate conflictingDB 1 EvalType.proposal 1).2.getD gateBypassProject)
    rfl rfl rfl rfl rfl rfl rfl (by decide) (by decide)

theorem C3_completion_flags_witness :
    ∃ p', findDoc (submitEvaluation submitReqA noFaults twoDefenseDB).1.projects 1
        = some p' ∧
      (p'.sub EvalType.proposal).hasGraduated = true ∧
      ((p'.sub EvalType.proposal).defenses.find? (fun d => d.oid = 10)).map
        (fun d => d.isGraded) = some true :=
  (C3_completion_flags submitReqA noFaults twoDefenseDB samplePE 1 1 3 7 4
    (gateUpdate twoDefenseDB 1 EvalType.proposal 1).1
    ((gateUpdate twoDefenseDB 1 EvalType.proposal 1).2.getD twoDefenseProject)
    ⟨10, [⟨1, true⟩], false⟩
    rfl rfl rfl rfl rfl rfl rfl (by decide) (by decide) (by decide)).1 (by decide)

/-- C4 (counterexample): in `twoDefenseDB`, evaluator 1's submission
grades only defense-object 10, yet the committed state already has the
type-level `hasGraduated = true` while defense-object 11 is ungraded —
refuting "hasGraduated becomes true exactly when all of that type's
defense-objects are graded". -/
theorem C4_counterexample :
    (findDoc (submitEvaluation submitReqA noFaults twoDefenseDB).1.projects 1).map
      (fun p => p.proposal.hasGraduated) = some true ∧
    (findDoc (submitEvaluation submitReqA noFaults twoDefenseDB).1.projects 1).map
      (fun p => p.proposal.defenses.map (fun d => (d.oid, d.isGraded)))
      = some [(10, true), (11, false)] := by
  decide

theorem C4_hasGraduated_per_defense_object_witness :
    ∃ p', findDoc (submitEvaluation submitReqA noFaults twoDefenseDB).1.projects 1
        = some p' ∧
      (p'.sub EvalType.proposal).hasGraduated = true ∧
      ((p'.sub EvalType.proposal).defenses.find? (fun d => d.oid = 11)).map
        (fun d => d.isGraded) = some false :=
  C4_hasGraduated_per_defense_object submitReqA noFaults twoDefenseDB samplePE 1 1 3 7 4
    (gateUpdate twoDefenseDB 1 EvalType.proposal 1).1
    ((gateUpdate twoDefenseDB 1 EvalType.proposal 1).2.getD twoDefenseProject)
    ⟨10, [⟨1, true⟩], false⟩
    rfl rfl rfl rfl rfl rfl rfl (by decide) (by decide) (by decide) (by decide)
    11 ⟨11, [⟨2, false⟩], false⟩ (by decide) (by decide) (by decide)

/-- C5 (counterexample): a storage failure while marking room 8
completed is swallowed: the submission still commits with 201, room 4's
completion write (made before the failure) is committed, room 8 stays
incomplete and the defense status is never recomputed — partial
completion state, where the fault-free run would have completed the
defense (status 105). -/
theorem C5_counterexample :
    (submitEvaluation submitReqA faultRoom8 twoRoomDB).2.isOk = true ∧
    (findDoc (submitEvaluation submitReqA faultRoom8 twoRoomDB).1.rooms 4).map
      (fun r => r.isCompleted) = some true ∧
    (findDoc (submitEvaluation submitReqA faultRoom8 twoRoomDB).1.rooms 8).map
      (fun r => r.isCompleted) = some false ∧
    (findDoc (submitEvaluation submitReqA faultRoom8 twoRoomDB).1.defenses 3).map
      (fun d => d.status) = some 100 ∧
    (findDoc (submitEvaluation submitReqA noFaults twoRoomDB).1.defenses 3).map
      (fun d => d.status) = some 105 := by
  decide

/-- C6 (counterexample): `getDefenseBydId` marks room 4 completed
although its only project has no graded defense-object at all (its
defense list is empty), so `Room.isCompleted` does not hold iff every
assigned project has at least one graded defense-object. -/
theorem C6_counterexample :
    (findDoc (getDefenseBydId 3 emptyDefensesDB).1.rooms 4).map
      (fun r => r.isCompleted) = some true ∧
    (findDoc (getDefenseBydId 3 emptyDefensesDB).1.rooms 4).map
      (fun r => roomSatisfied (getDefenseBydId 3 emptyDefensesDB).1 EvalType.proposal r)
      = some false := by
  decide

theorem C6_room_completion_one_directional_witness :
    ∃ room, findDoc pendingRoomDB.rooms 8 = some room ∧
      roomSatisfied pendingRoomDB EvalType.proposal room = true ∧
      findDoc (checkAndUpdateDefenseCompletionWithSession 3 EvalType.proposal noFaults
        pendingRoomDB).rooms 8 = some { room with isCompleted := true } :=
  C6_room_completion_one_directional 3 EvalType.proposal noFaults pendingRoomDB 8
    (by decide) (by decide)

/-- A tier-0 student (batch two years before the current year 2026). -/
def student21 : Student :=
  { progressStatus := 0, isAssociated := true, project := some 1, batchNumber := 2024 }

/-- A tier-1 student (batch three years before the current year 2026). -/
def student22 : Student :=
  { progressStatus := 1000, isAssociated := true, project := some 1, batchNumber := 2023 }

/-- A two-member team on project 1. -/
def teamProject : Project :=
  { proposal := { defenses := [⟨10, [⟨1, true⟩], false⟩], hasGraduated := false, evaluations := [], report := some "p.pdf" }
    mid := emptySub
    final := emptySub
    teamMembers := [21, 22]
    status := 100 }

/-- A state holding the two team members and project 1. -/
def teamDB : DB :=
  { projects := [(1, teamProject)]
    students := [(21, student21), (22, student22)]
    evaluators := []
    rooms := []
    defenses := []
    evaluations := []
    nextEvalId := 6
    currentYear := 2026 }

/-- A REJECTED aggregate evaluation. -/
def rejectedPE : ProjectEval := { judgement := Judgement.REJECTED }

/-- A PROGRESS-NOT-SATISFACTORY aggregate evaluation. -/
def pnsPE : ProjectEval := { judgement := Judgement.PROGRESS_NOT_SATISFACTORY }

theorem C7_proposal_rejected_witness :
    (∀ sid ∈ teamProject.teamMembers, ∃ st st',
      findDoc teamDB.students sid = some st ∧
      findDoc (updateStudentProgressStatusWithSession teamProject 1 EvalType.proposal
        rejectedPE teamDB).students sid = some st' ∧
      st'.isAssociated = false ∧ st'.project = none ∧
      st'.progressStatus = tierStatusFor
        (initializeEventTypeBasedOnBatch teamDB.currentYear st.batchNumber)
        (progressStatusEligibilityCode EvalType.proposal).rejected) ∧
    (∃ p', findDoc (updateStudentProgressStatusWithSession teamProject 1 EvalType.proposal
        rejectedPE teamDB).projects 1 = some p' ∧
      p'.status = eventStatusList.archive ∧ p'.proposal.report = none) :=
  C7_proposal_rejected teamProject 1 rejectedPE teamDB rfl (by decide) (by decide)
    (by
      intro sid hsid
      fin_cases hsid
      · exact ⟨student21, by decide, by decide⟩
      · exact ⟨student22, by decide, by decide⟩)
    teamProject (by decide)

theorem C10_mid_not_satisfactory_passes_witness :
    updateStudentProgressStatusWithSession teamProject 1 EvalType.mid pnsPE teamDB
      = updateStudentProgressStatusWithSession teamProject 1 EvalType.mid
          { pnsPE with judgement := Judgement.PROGRESS_SATISFACTORY } teamDB ∧
    (∀ sid ∈ teamProject.teamMembers, ∃ st st',
      findDoc teamDB.students sid = some st ∧
      findDoc (updateStudentProgressStatusWithSession teamProject 1 EvalType.mid pnsPE
        teamDB).students sid = some st' ∧
      st'.progressStatus = tierStatusFor
        (initializeEventTypeBasedOnBatch teamDB.currentYear st.batchNumber)
        (progressStatusEligibilityCode EvalType.mid).defensePass ∧
      st'.isAssociated = st.isAssociated ∧ st'.project = st.project) ∧
    (updateStudentProgressStatusWithSession teamProject 1 EvalType.mid pnsPE
      teamDB).projects = teamDB.projects :=
  C10_mid_not_satisfactory_passes teamProject 1 pnsPE teamDB rfl (by decide)
    (by
      intro sid hsid
      fin_cases hsid
      · exact ⟨student21, by decide, by decide⟩
      · exact ⟨student22, by decide, by decide⟩)

theorem C9_getDefenseBydId_persists_completion_witness :
    ((getDefenseBydId 3 emptyDefensesDB).2
      = some (if allRoomsFullyGraded emptyDefensesDB EvalType.proposal [4] then
          { rooms := [4], status := eventStatusList.complete, evaluations := [], defenseType := EvalType.proposal }
        else { rooms := [4], status := 100, evaluations := [], defenseType := EvalType.proposal })) ∧
    (findDoc (getDefenseBydId 3 emptyDefensesDB).1.defenses 3
      = some (if allRoomsFullyGraded emptyDefensesDB EvalType.proposal [4] then
          { rooms := [4], status := eventStatusList.complete, evaluations := [], defenseType := EvalType.proposal }
        else { rooms := [4], status := 100, evaluations := [], defenseType := EvalType.proposal })) ∧
    (∀ rid ∈ [4], ∀ room, findDoc emptyDefensesDB.rooms rid = some room →
      findDoc (getDefenseBydId 3 emptyDefensesDB).1.rooms rid
        = some (if roomFullyGraded emptyDefensesDB EvalType.proposal room then
            { room with isCompleted := true } else room)) ∧
    (∀ room : Room, roomFullyGraded emptyDefensesDB EvalType.proposal room = true →
      (∀ pid ∈ room.projects, ∀ p, findDoc emptyDefensesDB.projects pid = some p →
        (p.sub EvalType.proposal).defenses ≠ []) →
      roomSatisfied emptyDefensesDB EvalType.proposal room = true) :=
  C9_getDefenseBydId_persists_completion emptyDefensesDB 3
    { rooms := [4], status := 100, evaluations := [], defenseType := EvalType.proposal }
    (by decide) (by decide)

/-- An individual entry marked absent that nevertheless carries a
submitted presentation score of "5". -/
def absentIndividual : IndividualEval :=
  { member := 9, performanceAtPresentation := some "5", absent := some true,
    contributionInWork := some "7" }

/-- C8 (counterexample): the Record Writer stores the submitted
`performanceAtPresentation` score "5" for a member marked absent — it is
a scored field of the canonical record, yet it is not forced to the zero
value. -/
theorem C8_counterexample :
    ∃ f ∈ (createEvaluationRecordWithSession [absentIndividual] samplePE 1 1 3 7
        EvalType.proposal emptyDefensesDB).2.individualEvaluation,
      f.absent = true ∧ f.performanceAtPresentation = "5" ∧
      f.performanceAtPresentation ≠ "0" := by
  decide

theorem C8_absent_zeroes_type_fields_witness :
    typeScoredFieldsZeroed (formatIndividual EvalType.proposal samplePE absentIndividual)
        = true ∧
    ∃ e ∈ [absentIndividual],
      formatIndividual EvalType.proposal samplePE absentIndividual
          = formatIndividual EvalType.proposal samplePE e ∧
      (formatIndividual EvalType.proposal samplePE absentIndividual).performanceAtPresentation
          = orZero e.performanceAtPresentation :=
  C8_absent_zeroes_type_fields [absentIndividual] samplePE 1 1 3 7 EvalType.proposal
    emptyDefensesDB (formatIndividual EvalType.proposal samplePE absentIndividual)
    (by decide) (by decide)
